import Mathlib

/-!
Shallow embedding of `obstacle_manager.py` (drone_path_obstacle): the obstacle
registry, the local equirectangular projection, segment/circle collision
testing, scan-line segmentation, tangent detour synthesis, ray-casting
point-in-polygon, and the waypoint assembler `filter_waypoints_with_detour`.
Python floats are idealized as real numbers; `math.pi`, `math.cos`,
`math.sqrt` become `Real.pi`, `Real.cos`, `Real.sqrt`.  Geographic points are
`(lat, lon)` pairs, exactly as in the source.
-/

namespace DroneObstacle

noncomputable section

/-- Fixed meters-per-degree scale constant `self.earth_radius_m = 111111.0`. -/
def earth_radius_m : ℝ := 111111

/-- Obstacle record: center `(lat, lon)`, radius and safe distance in meters.
The display-only fields (`marker`, `circle`, `safe_circle`) are dropped. -/
structure Obstacle where
  center : ℝ × ℝ
  radius : ℝ
  safe_distance : ℝ
deriving DecidableEq

/-- Property `effective_radius = radius + safe_distance`. -/
def Obstacle.effective_radius (o : Obstacle) : ℝ := o.radius + o.safe_distance

/-- Degrees to radians, `math.radians(d) = d * (pi / 180)`. -/
def radians (d : ℝ) : ℝ := d * (Real.pi / 180)

/-- Local projection `to_meters` used (as an inner closure, always with this
exact body) by `_calculate_line_circle_intersection`, `_generate_tangent_detour`
and `line_intersects_circle`: centered at `c = (cx, cy)`,
`y = (lat - cx) * (pi/180) * earth_radius_m` and
`x = (lon - cy) * (pi/180) * earth_radius_m * cos(radians cx)`.
Returns `(x, y)`. -/
def to_meters (c p : ℝ × ℝ) : ℝ × ℝ :=
  ((p.2 - c.2) * (Real.pi / 180) * earth_radius_m * Real.cos (radians c.1),
   (p.1 - c.1) * (Real.pi / 180) * earth_radius_m)

/-- Inverse local projection `to_latlon` (same inner closure in the source):
`lat = cx + y / earth_radius_m * (180/pi)`,
`lon = cy + x / (earth_radius_m * cos(radians cx)) * (180/pi)`.
Takes the local point `(x, y)` and returns `(lat, lon)`. -/
def to_latlon (c q : ℝ × ℝ) : ℝ × ℝ :=
  (c.1 + q.2 / earth_radius_m * (180 / Real.pi),
   c.2 + q.1 / (earth_radius_m * Real.cos (radians c.1)) * (180 / Real.pi))

/-- `ObstacleManager.calculate_distance`: planar approximation of the distance
in meters between two geographic points. -/
def calculate_distance (p1 p2 : ℝ × ℝ) : ℝ :=
  Real.sqrt ((radians (p2.2 - p1.2) * Real.cos (radians ((p1.1 + p2.1) / 2))) *
               (radians (p2.2 - p1.2) * Real.cos (radians ((p1.1 + p2.1) / 2))) +
             radians (p2.1 - p1.1) * radians (p2.1 - p1.1)) * earth_radius_m

/-- Local segment direction component `dx = x2 - x1` (center `c`). -/
def seg_dx (c p1 p2 : ℝ × ℝ) : ℝ := (to_meters c p2).1 - (to_meters c p1).1

/-- Local segment direction component `dy = y2 - y1` (center `c`). -/
def seg_dy (c p1 p2 : ℝ × ℝ) : ℝ := (to_meters c p2).2 - (to_meters c p1).2

/-- Squared local segment length `dr2 = dx*dx + dy*dy`; this is also the
quadratic coefficient `a` of `_calculate_line_circle_intersection`. -/
def seg_dr2 (c p1 p2 : ℝ × ℝ) : ℝ :=
  seg_dx c p1 p2 * seg_dx c p1 p2 + seg_dy c p1 p2 * seg_dy c p1 p2

/-- Clamped projection parameter of `line_intersects_circle`:
`t = max(0, min(1, -(x1*dx + y1*dy) / dr2))`. -/
def closest_t (c p1 p2 : ℝ × ℝ) : ℝ :=
  max 0 (min 1 (-((to_meters c p1).1 * seg_dx c p1 p2 + (to_meters c p1).2 * seg_dy c p1 p2) /
    seg_dr2 c p1 p2))

/-- Squared distance from the local origin to the clamped closest point of the
segment, `closest_x*closest_x + closest_y*closest_y`. -/
def closest_dist_sq (c p1 p2 : ℝ × ℝ) : ℝ :=
  ((to_meters c p1).1 + closest_t c p1 p2 * seg_dx c p1 p2) *
    ((to_meters c p1).1 + closest_t c p1 p2 * seg_dx c p1 p2) +
  ((to_meters c p1).2 + closest_t c p1 p2 * seg_dy c p1 p2) *
    ((to_meters c p1).2 + closest_t c p1 p2 * seg_dy c p1 p2)

/-- `ObstacleManager.line_intersects_circle`: if the local segment degenerates
to a point (`dr2 == 0`) compare the point's squared distance with `<=`;
otherwise compare the clamped closest point's squared distance with strict `<`. -/
def line_intersects_circle (p1 p2 center : ℝ × ℝ) (radius_m : ℝ) : Bool :=
  if seg_dr2 center p1 p2 = 0 then
    decide ((to_meters center p1).1 * (to_meters center p1).1 +
            (to_meters center p1).2 * (to_meters center p1).2 ≤ radius_m * radius_m)
  else
    decide (closest_dist_sq center p1 p2 < radius_m * radius_m)

/-- `ObstacleManager.check_segment_collision`: the obstacles (in registry
order) whose effective circle the segment intersects. -/
def check_segment_collision (obstacles : List Obstacle) (p1 p2 : ℝ × ℝ) : List Obstacle :=
  obstacles.filter fun o => line_intersects_circle p1 p2 o.center o.effective_radius

/-- Quadratic coefficient `b = 2 * (dx*x1 + dy*y1)`. -/
def quad_b (c p1 p2 : ℝ × ℝ) : ℝ :=
  2 * (seg_dx c p1 p2 * (to_meters c p1).1 + seg_dy c p1 p2 * (to_meters c p1).2)

/-- Quadratic coefficient `c = x1*x1 + y1*y1 - radius*radius`. -/
def quad_c (c p1 p2 : ℝ × ℝ) (r : ℝ) : ℝ :=
  (to_meters c p1).1 * (to_meters c p1).1 + (to_meters c p1).2 * (to_meters c p1).2 - r * r

/-- Discriminant `b*b - 4*a*c` of the line-circle quadratic. -/
def quad_disc (c p1 p2 : ℝ × ℝ) (r : ℝ) : ℝ :=
  quad_b c p1 p2 * quad_b c p1 p2 - 4 * (seg_dr2 c p1 p2) * quad_c c p1 p2 r

/-- First root `t1 = (-b - sqrt(disc)) / (2a)`. -/
def root_t1 (c p1 p2 : ℝ × ℝ) (r : ℝ) : ℝ :=
  (-quad_b c p1 p2 - Real.sqrt (quad_disc c p1 p2 r)) / (2 * seg_dr2 c p1 p2)

/-- Second root `t2 = (-b + sqrt(disc)) / (2a)`. -/
def root_t2 (c p1 p2 : ℝ × ℝ) (r : ℝ) : ℝ :=
  (-quad_b c p1 p2 + Real.sqrt (quad_disc c p1 p2 r)) / (2 * seg_dr2 c p1 p2)

/-- Local point of the segment at parameter `t`: `(x1 + t*dx, y1 + t*dy)`. -/
def point_at (c p1 p2 : ℝ × ℝ) (t : ℝ) : ℝ × ℝ :=
  ((to_meters c p1).1 + t * seg_dx c p1 p2, (to_meters c p1).2 + t * seg_dy c p1 p2)

/-- `ObstacleManager._calculate_line_circle_intersection`: geographic
intersection points of the segment with the obstacle's effective circle;
empty when `discriminant < 0 or a == 0`, else the roots in `[0, 1]` (in the
order `t1`, `t2`) mapped back through `to_latlon`. -/
def calculate_line_circle_intersection (p1 p2 : ℝ × ℝ) (obstacle : Obstacle) : List (ℝ × ℝ) :=
  if quad_disc obstacle.center p1 p2 obstacle.effective_radius < 0 ∨
      seg_dr2 obstacle.center p1 p2 = 0 then []
  else
    ([root_t1 obstacle.center p1 p2 obstacle.effective_radius,
      root_t2 obstacle.center p1 p2 obstacle.effective_radius].filter
        fun t => decide (0 ≤ t ∧ t ≤ 1)).map
      fun t => to_latlon obstacle.center (point_at obstacle.center p1 p2 t)

/-- Local segment length `length = sqrt(dx*dx + dy*dy)`. -/
def seg_len (c p1 p2 : ℝ × ℝ) : ℝ := Real.sqrt (seg_dr2 c p1 p2)

/-- Unit direction component `ux = dx / length`. -/
def unit_ux (c p1 p2 : ℝ × ℝ) : ℝ := seg_dx c p1 p2 / seg_len c p1 p2

/-- Unit direction component `uy = dy / length`. -/
def unit_uy (c p1 p2 : ℝ × ℝ) : ℝ := seg_dy c p1 p2 / seg_len c p1 p2

/-- Leftward perpendicular component `perp_x = -uy`. -/
def perp_x (c p1 p2 : ℝ × ℝ) : ℝ := -(unit_uy c p1 p2)

/-- Leftward perpendicular component `perp_y = ux`. -/
def perp_y (c p1 p2 : ℝ × ℝ) : ℝ := unit_ux c p1 p2

/-- Candidate offset `detour1 = (perp_x * off, perp_y * off)` (left bypass). -/
def detour1_vec (c p1 p2 : ℝ × ℝ) (off : ℝ) : ℝ × ℝ :=
  (perp_x c p1 p2 * off, perp_y c p1 p2 * off)

/-- Candidate offset `detour2 = (-perp_x * off, -perp_y * off)` (right bypass). -/
def detour2_vec (c p1 p2 : ℝ × ℝ) (off : ℝ) : ℝ × ℝ :=
  (-(perp_x c p1 p2) * off, -(perp_y c p1 p2) * off)

/-- Side selection of `_generate_tangent_detour`: keep the candidate whose
squared magnitude `detour_x**2 + detour_y**2` is strictly smaller, defaulting
to `detour2` otherwise. -/
def chosen_detour (c p1 p2 : ℝ × ℝ) (off : ℝ) : ℝ × ℝ :=
  if (detour1_vec c p1 p2 off).1 ^ 2 + (detour1_vec c p1 p2 off).2 ^ 2 <
      (detour2_vec c p1 p2 off).1 ^ 2 + (detour2_vec c p1 p2 off).2 ^ 2 then
    detour1_vec c p1 p2 off
  else detour2_vec c p1 p2 off

/-- `ObstacleManager._generate_tangent_detour`: bypass entry/exit points at
parameters `t=0.25` and `t=0.75` along the segment, displaced by the chosen
offset of magnitude `effective_radius * 1.2`; empty if `length < 0.001`.
The parameters `inter1`, `inter2` are accepted but never used, exactly as in
the source. -/
def generate_tangent_detour (p1 p2 : ℝ × ℝ) (obstacle : Obstacle)
    (inter1 inter2 : ℝ × ℝ) : List (ℝ × ℝ) :=
  if seg_len obstacle.center p1 p2 < 0.001 then []
  else
    [to_latlon obstacle.center
       ((to_meters obstacle.center p1).1 +
          unit_ux obstacle.center p1 p2 * seg_len obstacle.center p1 p2 * 0.25 +
          (chosen_detour obstacle.center p1 p2 (obstacle.effective_radius * 1.2)).1,
        (to_meters obstacle.center p1).2 +
          unit_uy obstacle.center p1 p2 * seg_len obstacle.center p1 p2 * 0.25 +
          (chosen_detour obstacle.center p1 p2 (obstacle.effective_radius * 1.2)).2),
     to_latlon obstacle.center
       ((to_meters obstacle.center p1).1 +
          unit_ux obstacle.center p1 p2 * seg_len obstacle.center p1 p2 * 0.75 +
          (chosen_detour obstacle.center p1 p2 (obstacle.effective_radius * 1.2)).1,
        (to_meters obstacle.center p1).2 +
          unit_uy obstacle.center p1 p2 * seg_len obstacle.center p1 p2 * 0.75 +
          (chosen_detour obstacle.center p1 p2 (obstacle.effective_radius * 1.2)).2)]

/-- One iteration of the ray-casting loop of `ObstacleManager.point_in_polygon`,
threading the Python state `(inside, xinters)` explicitly; `xinters : Option ℝ`
is `none` while the variable is still unbound.  The third component records
whether some iteration read `xinters` without having assigned it in that same
iteration (Python would use a stale value, or raise `NameError` if unbound). -/
def pip_step (p : ℝ × ℝ) (st : Bool × Option ℝ × Bool)
    (e : (ℝ × ℝ) × (ℝ × ℝ)) : Bool × Option ℝ × Bool :=
  if p.2 > min e.1.2 e.2.2 ∧ p.2 ≤ max e.1.2 e.2.2 ∧ p.1 ≤ max e.1.1 e.2.1 then
    (if e.1.1 = e.2.1 ∨ p.1 ≤ (if e.1.2 ≠ e.2.2 then
          some ((p.2 - e.1.2) * (e.2.1 - e.1.1) / (e.2.2 - e.1.2) + e.1.1)
        else st.2.1).getD 0 then !st.1 else st.1,
     (if e.1.2 ≠ e.2.2 then
        some ((p.2 - e.1.2) * (e.2.1 - e.1.1) / (e.2.2 - e.1.2) + e.1.1)
      else st.2.1),
     st.2.2 || decide (¬e.1.1 = e.2.1 ∧ e.1.2 = e.2.2))
  else st

/-- Full run of the ray-casting loop over the polygon's edge list
`(polygon[i-1], polygon[i % n])` for `i = 1..n`. -/
def point_in_polygon_run (p : ℝ × ℝ) (polygon : List (ℝ × ℝ)) : Bool × Option ℝ × Bool :=
  (polygon.zip (polygon.rotate 1)).foldl (pip_step p) (false, none, false)

/-- `ObstacleManager.point_in_polygon`: the `inside` flag after the loop. -/
def point_in_polygon (p : ℝ × ℝ) (polygon : List (ℝ × ℝ)) : Bool :=
  (point_in_polygon_run p polygon).1

/-- Instrumentation flag: true iff the run performed a stale or unbound read
of `xinters`. -/
def xinters_bad_read (p : ℝ × ℝ) (polygon : List (ℝ × ℝ)) : Bool :=
  (point_in_polygon_run p polygon).2.2

/-- Boundary filter of `_segment_scan_line`:
`boundary_corners is None or self.point_in_polygon(dp, boundary_corners)`. -/
def passes_boundary (boundary : Option (List (ℝ × ℝ))) (dp : ℝ × ℝ) : Bool :=
  match boundary with
  | none => true
  | some poly => point_in_polygon dp poly

/-- `ObstacleManager._segment_scan_line`: detour-segment a colliding scan line
around the first colliding obstacle, falling back to `[p1, p2]` when fewer
than two intersections exist or no bypass point survives the boundary check. -/
def segment_scan_line (p1 p2 : ℝ × ℝ) (obstacles : List Obstacle)
    (boundary : Option (List (ℝ × ℝ))) : List (ℝ × ℝ) :=
  match obstacles with
  | [] => [p1, p2]
  | obstacle :: _ =>
    if (calculate_line_circle_intersection p1 p2 obstacle).length < 2 then [p1, p2]
    else
      if ((generate_tangent_detour p1 p2 obstacle
            ((calculate_line_circle_intersection p1 p2 obstacle).getD 0 (0, 0))
            ((calculate_line_circle_intersection p1 p2 obstacle).getD 1 (0, 0))).filter
            (passes_boundary boundary)) = [] then [p1, p2]
      else
        p1 :: ((generate_tangent_detour p1 p2 obstacle
            ((calculate_line_circle_intersection p1 p2 obstacle).getD 0 (0, 0))
            ((calculate_line_circle_intersection p1 p2 obstacle).getD 1 (0, 0))).filter
            (passes_boundary boundary)) ++ [p2]

/-- `ObstacleManager._identify_scan_segments`: label each adjacent waypoint
pair "scan" iff its planar distance strictly exceeds 0.6 times the median
distance (the element at index `len // 2` of the sorted distance list). -/
def identify_scan_segments (waypoints : List (ℝ × ℝ)) : List (String × ℕ × ℕ) :=
  if waypoints.length < 2 then []
  else
    if ((List.range (waypoints.length - 1)).map fun i =>
          (i, i + 1, calculate_distance (waypoints.getD i (0, 0)) (waypoints.getD (i + 1) (0, 0)))) =
        ([] : List (ℕ × ℕ × ℝ)) then []
    else
      (((List.range (waypoints.length - 1)).map fun i =>
          (i, i + 1, calculate_distance (waypoints.getD i (0, 0)) (waypoints.getD (i + 1) (0, 0)))).map
        fun d =>
          (if d.2.2 >
              (((((List.range (waypoints.length - 1)).map fun i =>
                    calculate_distance (waypoints.getD i (0, 0)) (waypoints.getD (i + 1) (0, 0))).insertionSort
                  (· ≤ ·)).getD
                  (((((List.range (waypoints.length - 1)).map fun i =>
                    calculate_distance (waypoints.getD i (0, 0)) (waypoints.getD (i + 1) (0, 0))).insertionSort
                  (· ≤ ·)).length) / 2) 0) *
                0.6) then
            "scan"
          else "turn", d.1, d.2.1))

/-- Guarded append of the assembler: `if idx not in processed_indices:
result.append(waypoints[idx]); processed_indices.add(idx)` (used by the
collision-free scan branch, the turn branch, and the final sweep). -/
def append_if_new (waypoints : List (ℝ × ℝ)) (st : List (ℝ × ℝ) × List ℕ) (i : ℕ) :
    List (ℝ × ℝ) × List ℕ :=
  if i ∈ st.2 then st else (st.1 ++ [waypoints.getD i (0, 0)], st.2 ++ [i])

/-- Value-deduplicating append of the collision branch:
`if wp not in result_waypoints: result_waypoints.append(wp)`. -/
def dedup_append (result : List (ℝ × ℝ)) (pts : List (ℝ × ℝ)) : List (ℝ × ℝ) :=
  pts.foldl (fun res wp => if wp ∈ res then res else res ++ [wp]) result

/-- One segment of the assembler loop of `filter_waypoints_with_detour`. -/
def assemble_step (obstacles : List Obstacle) (waypoints : List (ℝ × ℝ))
    (boundary : Option (List (ℝ × ℝ))) (st : List (ℝ × ℝ) × List ℕ)
    (seg : String × ℕ × ℕ) : List (ℝ × ℝ) × List ℕ :=
  if seg.1 = "scan" then
    if check_segment_collision obstacles (waypoints.getD seg.2.1 (0, 0))
        (waypoints.getD seg.2.2 (0, 0)) = [] then
      append_if_new waypoints (append_if_new waypoints st seg.2.1) seg.2.2
    else
      (dedup_append st.1
        (segment_scan_line (waypoints.getD seg.2.1 (0, 0)) (waypoints.getD seg.2.2 (0, 0))
          (check_segment_collision obstacles (waypoints.getD seg.2.1 (0, 0))
            (waypoints.getD seg.2.2 (0, 0))) boundary),
       st.2 ++ [seg.2.1, seg.2.2])
  else
    append_if_new waypoints (append_if_new waypoints st seg.2.1) seg.2.2

/-- `ObstacleManager.filter_waypoints_with_detour` (the routing entry point):
identify scan segments, detour colliding scan lines, keep turn points, then
sweep up any waypoint index never processed. -/
def filter_waypoints_with_detour (obstacles : List Obstacle) (waypoints : List (ℝ × ℝ))
    (boundary : Option (List (ℝ × ℝ))) : List (ℝ × ℝ) :=
  if waypoints.isEmpty || obstacles.isEmpty then waypoints
  else
    ((List.range waypoints.length).foldl (append_if_new waypoints)
      ((identify_scan_segments waypoints).foldl (assemble_step obstacles waypoints boundary)
        ([], []))).1

/-- `ObstacleManager.add_obstacle`: append a fresh obstacle to the registry. -/
def add_obstacle (obstacles : List Obstacle) (center : ℝ × ℝ) (radius safe_distance : ℝ) :
    Obstacle × List Obstacle :=
  (⟨center, radius, safe_distance⟩, obstacles ++ [⟨center, radius, safe_distance⟩])

/-- Removal of the first matching element, as Python's `list.remove`. -/
def list_remove (obstacles : List Obstacle) (o : Obstacle) : List Obstacle :=
  match obstacles with
  | [] => []
  | x :: xs => if x = o then xs else x :: list_remove xs o

/-- `ObstacleManager.remove_obstacle`: remove the obstacle if present. -/
def remove_obstacle (obstacles : List Obstacle) (o : Obstacle) : List Obstacle × Bool :=
  if o ∈ obstacles then (list_remove obstacles o, true) else (obstacles, false)

/-- The scanning loop of `remove_nearest_obstacle`: running best
`(min_dist, nearest_obs)`, starting from `(inf, None)` modelled as `none`;
updates on strict `dist < min_dist`. -/
def nearest_loop (coords : ℝ × ℝ) : List Obstacle → Option (ℝ × Obstacle) → Option (ℝ × Obstacle)
  | [], best => best
  | o :: rest, best =>
    match best with
    | none => nearest_loop coords rest (some (calculate_distance coords o.center, o))
    | some (m, b) =>
      if calculate_distance coords o.center < m then
        nearest_loop coords rest (some (calculate_distance coords o.center, o))
      else nearest_loop coords rest (some (m, b))

/-- `ObstacleManager.remove_nearest_obstacle`: returns the removed obstacle
(or `none` on an empty registry) together with the new registry; the
`threshold_m` parameter is accepted but never read, as in the source. -/
def remove_nearest_obstacle (obstacles : List Obstacle) (coords : ℝ × ℝ)
    (threshold_m : ℝ) : Option Obstacle × List Obstacle :=
  if obstacles.isEmpty then (none, obstacles)
  else
    match nearest_loop coords obstacles none with
    | none => (none, obstacles)
    | some (_, o) => (some o, (remove_obstacle obstacles o).1)

/-- Abbreviation for the meters-per-degree factor that the code's projections
actually apply: `(pi / 180) * earth_radius_m`. -/
def Kc : ℝ := Real.pi / 180 * earth_radius_m

/-- Squared distance from the local origin (obstacle center) to the point of
the segment at parameter `t`; used to state the collision characterization. -/
def seg_dist_sq (c p1 p2 : ℝ × ℝ) (t : ℝ) : ℝ :=
  (point_at c p1 p2 t).1 * (point_at c p1 p2 t).1 +
  (point_at c p1 p2 t).2 * (point_at c p1 p2 t).2

/-- Default obstacle used for safe indexing in statements. -/
def obD : Obstacle := ⟨(0, 0), 0, 0⟩

/-- Concrete obstacle of the end-to-end scenario of C2. -/
def obC2 : Obstacle := ⟨(0, 0.005), 50, 1⟩

/-- Concrete waypoints of the end-to-end scenario of C2. -/
def wpC2 : List (ℝ × ℝ) := [(0, 0), (0, 0.01)]

/-- First registered obstacle of the idempotence counterexample: effective
radius 4 local meters, centered at the origin. -/
def O1 : Obstacle := ⟨(0, 0), 4, 0⟩

/-- Second registered obstacle of the idempotence counterexample: effective
radius 5 local meters, same center. -/
def O2 : Obstacle := ⟨(0, 0), 5, 0⟩

/-- Registry of the idempotence counterexample. -/
def Ma : List Obstacle := [O1, O2]

/-- Start waypoint of the idempotence counterexample (local `(-10, 0)`). -/
def p1a : ℝ × ℝ := (0, -10 / Kc)

/-- End waypoint of the idempotence counterexample (local `(10, 0)`). -/
def p2a : ℝ × ℝ := (0, 10 / Kc)

/-- First bypass point produced by pass one (local `(-5, -4.8)`). -/
def entryA : ℝ × ℝ := (-4.8 / Kc, -5 / Kc)

/-- Second bypass point produced by pass one (local `(5, -4.8)`). -/
def exitA : ℝ × ℝ := (-4.8 / Kc, 5 / Kc)

/-- First bypass point produced by pass two (local `(-2.5, -10.8)`). -/
def entryB : ℝ × ℝ := (-10.8 / Kc, -2.5 / Kc)

/-- Second bypass point produced by pass two (local `(2.5, -10.8)`). -/
def exitB : ℝ × ℝ := (-10.8 / Kc, 2.5 / Kc)

/-- Output of the first routing pass on `[p1a, p2a]`. -/
def w1a : List (ℝ × ℝ) := [p1a, entryA, exitA, p2a]

/-- Output of the second routing pass on `w1a`. -/
def w2a : List (ℝ × ℝ) := [p1a, entryA, entryB, exitB, exitA, p2a]

/-- Obstacle of the degenerate-detour counterexample for C3: effective radius
0.0001 local meters. -/
def oc3 : Obstacle := ⟨(0, 0), 0.0001, 0⟩

/-- Start waypoint of the C3 counterexample (local `(-0.0004, 0)`). -/
def p1c : ℝ × ℝ := (0, -0.0004 / Kc)

/-- End waypoint of the C3 counterexample (local `(0.0004, 0)`). -/
def p2c : ℝ × ℝ := (0, 0.0004 / Kc)

/-- Obstacle of the C3 witness: effective radius 0.001 local meters. -/
def ow3 : Obstacle := ⟨(0, 0), 0.001, 0⟩

/-- Start waypoint of the C3 witness (local `(-0.004, 0)`). -/
def p1w : ℝ × ℝ := (0, -0.004 / Kc)

/-- End waypoint of the C3 witness (local `(0.004, 0)`). -/
def p2w : ℝ × ℝ := (0, 0.004 / Kc)

/-- Five-point path of the segmentation witness, with consecutive planar
distances 100, 5, 100, 5 meters. -/
def path5 : List (ℝ × ℝ) :=
  [(0, 0), (100 / Kc, 0), (105 / Kc, 0), (205 / Kc, 0), (210 / Kc, 0)]

/-! ### Basic facts about the projection constants -/

theorem Kc_pos : 0 < Kc := by
  have := Real.pi_pos
  simp only [Kc, earth_radius_m]
  positivity

theorem Kc_ne : Kc ≠ 0 := ne_of_gt Kc_pos

theorem Kc_lt_1945 : Kc < 1945 := by
  have h := Real.pi_lt_d2
  simp only [Kc, earth_radius_m]
  nlinarith

theorem radians_zero : radians 0 = 0 := by simp [radians]

theorem cos_radians_zero : Real.cos (radians 0) = 1 := by
  rw [radians_zero, Real.cos_zero]

theorem to_meters_lat0 (cy a b : ℝ) :
    to_meters (0, cy) (a, b) = ((b - cy) * Kc, a * Kc) := by
  simp only [to_meters, Kc, cos_radians_zero, Prod.mk.injEq]
  constructor <;> ring

theorem to_latlon_lat0 (cy x y : ℝ) :
    to_latlon (0, cy) (x, y) = (y / Kc, cy + x / Kc) := by
  have hpi := Real.pi_ne_zero
  simp only [to_latlon, Kc, cos_radians_zero, earth_radius_m, Prod.mk.injEq]
  constructor
  · rw [zero_add]
    field_simp
    left
    ring
  · field_simp
    ring

theorem calculate_distance_eq (a₁ b₁ a₂ b₂ : ℝ) :
    calculate_distance (a₁, b₁) (a₂, b₂) =
      Real.sqrt (((b₂ - b₁) * Real.cos (radians ((a₁ + a₂) / 2))) ^ 2 + (a₂ - a₁) ^ 2) * Kc := by
  have hpi : (0 : ℝ) ≤ Real.pi / 180 := by positivity
  have h : radians (b₂ - b₁) * Real.cos (radians ((a₁ + a₂) / 2)) *
        (radians (b₂ - b₁) * Real.cos (radians ((a₁ + a₂) / 2))) +
        radians (a₂ - a₁) * radians (a₂ - a₁) =
      (Real.pi / 180) ^ 2 *
        (((b₂ - b₁) * Real.cos (radians ((a₁ + a₂) / 2))) ^ 2 + (a₂ - a₁) ^ 2) := by
    simp only [radians]
    ring
  simp only [calculate_distance]
  rw [h, Real.sqrt_mul (by positivity), Real.sqrt_sq hpi]
  simp only [Kc]
  ring

theorem calculate_distance_same_lon (a₁ a₂ b : ℝ) :
    calculate_distance (a₁, b) (a₂, b) = |a₂ - a₁| * Kc := by
  rw [calculate_distance_eq]
  norm_num [Real.sqrt_sq_eq_abs]

theorem calculate_distance_div (y₁ x₁ y₂ x₂ : ℝ) :
    calculate_distance (y₁ / Kc, x₁ / Kc) (y₂ / Kc, x₂ / Kc) =
      Real.sqrt (((x₂ - x₁) * Real.cos ((y₁ + y₂) / (2 * earth_radius_m))) ^ 2 +
        (y₂ - y₁) ^ 2) := by
  rw [calculate_distance_eq]
  have harg : radians ((y₁ / Kc + y₂ / Kc) / 2) = (y₁ + y₂) / (2 * earth_radius_m) := by
    have hpi := Real.pi_ne_zero
    simp only [radians, Kc, earth_radius_m]
    field_simp
    ring
  rw [harg]
  have hinner : ((x₂ / Kc - x₁ / Kc) * Real.cos ((y₁ + y₂) / (2 * earth_radius_m))) ^ 2 +
      (y₂ / Kc - y₁ / Kc) ^ 2 =
      (1 / Kc) ^ 2 * (((x₂ - x₁) * Real.cos ((y₁ + y₂) / (2 * earth_radius_m))) ^ 2 +
        (y₂ - y₁) ^ 2) := by
    field_simp
    ring
  have h0 := Kc_ne
  rw [hinner, Real.sqrt_mul (by positivity),
    Real.sqrt_sq (div_nonneg zero_le_one (le_of_lt Kc_pos))]
  field_simp

/-! ### C10: the ray-casting loop never reads an unset crossing coordinate -/

theorem pip_step_bad (p : ℝ × ℝ) (st : Bool × Option ℝ × Bool) (e : (ℝ × ℝ) × (ℝ × ℝ)) :
    (pip_step p st e).2.2 = st.2.2 := by
  by_cases h : p.2 > min e.1.2 e.2.2 ∧ p.2 ≤ max e.1.2 e.2.2 ∧ p.1 ≤ max e.1.1 e.2.1
  · have hne2 : ¬e.1.2 = e.2.2 := by
      intro heq
      obtain ⟨h1, h2, -⟩ := h
      rw [heq, min_self] at h1
      rw [heq, max_self] at h2
      exact absurd h2 (not_le.mpr h1)
    simp only [pip_step]
    rw [if_pos h]
    simp [hne2]
  · simp only [pip_step]
    rw [if_neg h]

theorem pip_fold_bad (p : ℝ × ℝ) :
    ∀ (edges : List ((ℝ × ℝ) × (ℝ × ℝ))) (st : Bool × Option ℝ × Bool),
      st.2.2 = false → (edges.foldl (pip_step p) st).2.2 = false := by
  intro edges
  induction edges with
  | nil => intro st h; exact h
  | cons e rest ih =>
    intro st h
    exact ih (pip_step p st e) (by rw [pip_step_bad]; exact h)

theorem point_in_polygon_run_bad (p : ℝ × ℝ) (polygon : List (ℝ × ℝ)) :
    (point_in_polygon_run p polygon).2.2 = false :=
  pip_fold_bad p _ _ rfl

/-- C10 (counterexample to the claim as stated): there is no polygon and query
point for which the ray-casting test reads `xinters` before assigning it in
that loop iteration; the guard `lon > min(lon1, lon2) and lon <= max(lon1,
lon2)` is unsatisfiable when `lon1 == lon2`, so the read-without-assignment
branch is unreachable. -/
theorem claim_C10_cex :
    ¬∃ (p : ℝ × ℝ) (polygon : List (ℝ × ℝ)), xinters_bad_read p polygon = true := by
  rintro ⟨p, polygon, h⟩
  rw [xinters_bad_read, point_in_polygon_run_bad] at h
  exact Bool.false_ne_true h

/-- C10 (amended): for every polygon and query point, `point_in_polygon` never
performs a stale or unbound read of `xinters`: whenever the comparison
`lat <= xinters` is reached, the edge satisfies `lon1 != lon2`, so `xinters`
was assigned in that same iteration. -/
theorem claim_C10 (p : ℝ × ℝ) (polygon : List (ℝ × ℝ)) :
    xinters_bad_read p polygon = false :=
  point_in_polygon_run_bad p polygon

/-! ### C4: the collision predicate and the clamped-projection minimum -/

theorem seg_dr2_nonneg (c p1 p2 : ℝ × ℝ) : 0 ≤ seg_dr2 c p1 p2 := by
  simp only [seg_dr2]
  nlinarith [mul_self_nonneg (seg_dx c p1 p2), mul_self_nonneg (seg_dy c p1 p2)]

theorem closest_t_mem (c p1 p2 : ℝ × ℝ) :
    0 ≤ closest_t c p1 p2 ∧ closest_t c p1 p2 ≤ 1 :=
  ⟨le_max_left 0 _, max_le zero_le_one (min_le_left 1 _)⟩

theorem closest_dist_sq_eq (c p1 p2 : ℝ × ℝ) :
    closest_dist_sq c p1 p2 = seg_dist_sq c p1 p2 (closest_t c p1 p2) := rfl

theorem seg_dist_sq_poly (c p1 p2 : ℝ × ℝ) (t : ℝ) :
    seg_dist_sq c p1 p2 t =
      seg_dr2 c p1 p2 * (t * t) +
        2 * ((to_meters c p1).1 * seg_dx c p1 p2 + (to_meters c p1).2 * seg_dy c p1 p2) * t +
        ((to_meters c p1).1 * (to_meters c p1).1 + (to_meters c p1).2 * (to_meters c p1).2) := by
  simp only [seg_dist_sq, point_at, seg_dr2]
  ring

theorem closest_dist_sq_min (c p1 p2 : ℝ × ℝ) (hA : seg_dr2 c p1 p2 ≠ 0) (t : ℝ)
    (h0 : 0 ≤ t) (h1 : t ≤ 1) :
    closest_dist_sq c p1 p2 ≤ seg_dist_sq c p1 p2 t := by
  have hApos : 0 < seg_dr2 c p1 p2 := lt_of_le_of_ne (seg_dr2_nonneg c p1 p2) (Ne.symm hA)
  rw [closest_dist_sq_eq]
  set A := seg_dr2 c p1 p2 with hAdef
  set b0 := (to_meters c p1).1 * seg_dx c p1 p2 + (to_meters c p1).2 * seg_dy c p1 p2 with hb0
  have hct : closest_t c p1 p2 = max 0 (min 1 (-b0 / A)) := rfl
  by_cases hlt : -b0 / A < 0
  · have hclamp : closest_t c p1 p2 = 0 := by
      rw [hct, min_eq_right (le_of_lt (lt_of_lt_of_le hlt zero_le_one)),
        max_eq_left (le_of_lt hlt)]
    have hbpos : 0 < b0 := by
      by_contra hcon
      push_neg at hcon
      exact absurd (div_nonneg (neg_nonneg.mpr hcon) (le_of_lt hApos)) (not_le.mpr hlt)
    rw [hclamp, seg_dist_sq_poly, seg_dist_sq_poly]
    nlinarith [mul_nonneg (mul_nonneg h0 h0) (le_of_lt hApos), mul_nonneg h0 (le_of_lt hbpos)]
  · by_cases hgt : 1 < -b0 / A
    · have hclamp : closest_t c p1 p2 = 1 := by
        rw [hct, min_eq_left (le_of_lt hgt), max_eq_right zero_le_one]
      have hblt : A < -b0 := by
        have := (lt_div_iff hApos).mp hgt
        linarith
      have hkey : 0 ≤ (1 - t) * (-(A + b0)) :=
        mul_nonneg (by linarith) (by linarith)
      rw [hclamp, seg_dist_sq_poly, seg_dist_sq_poly]
      nlinarith [mul_nonneg (mul_self_nonneg (t - 1)) (le_of_lt hApos)]
    · push_neg at hlt hgt
      have hclamp : closest_t c p1 p2 = -b0 / A := by
        rw [hct, min_eq_right hgt, max_eq_right hlt]
      have hu : A * (-b0 / A) = -b0 := by
        field_simp
        ring
      have hu2 : A * (-b0 / A) * (-b0 / A) = -b0 * (-b0 / A) := by rw [hu]
      rw [hclamp, seg_dist_sq_poly, seg_dist_sq_poly]
      nlinarith [mul_nonneg (le_of_lt hApos) (mul_self_nonneg (t - -b0 / A)), hu, hu2]

theorem line_intersects_circle_iff (p1 p2 c : ℝ × ℝ) (r : ℝ) (h : seg_dr2 c p1 p2 ≠ 0) :
    line_intersects_circle p1 p2 c r = true ↔
      ∃ t, 0 ≤ t ∧ t ≤ 1 ∧ seg_dist_sq c p1 p2 t < r * r := by
  rw [line_intersects_circle, if_neg h, decide_eq_true_eq]
  constructor
  · intro hlt
    exact ⟨closest_t c p1 p2, (closest_t_mem c p1 p2).1, (closest_t_mem c p1 p2).2,
      le_of_eq (closest_dist_sq_eq c p1 p2).symm |>.trans_lt hlt⟩
  · rintro ⟨t, h0, h1, hlt⟩
    exact lt_of_le_of_lt (closest_dist_sq_min c p1 p2 h t h0 h1) hlt

theorem seg_dist_sq_zero (c p1 p2 : ℝ × ℝ) :
    seg_dist_sq c p1 p2 0 =
      (to_meters c p1).1 * (to_meters c p1).1 + (to_meters c p1).2 * (to_meters c p1).2 := by
  simp only [seg_dist_sq, point_at]
  ring

theorem line_intersects_circle_degenerate (p1 p2 c : ℝ × ℝ) (r : ℝ)
    (h : seg_dr2 c p1 p2 = 0) :
    line_intersects_circle p1 p2 c r = true ↔ seg_dist_sq c p1 p2 0 ≤ r * r := by
  rw [line_intersects_circle, if_pos h, decide_eq_true_eq, seg_dist_sq_zero]

/-- C4 (amended): for a non-degenerate local segment, collision is decided by
strict comparison of the minimal squared segment distance against
`effective_radius` squared; in particular a closest approach exactly equal to
the radius is not a collision.  A degenerate (zero local length) segment,
however, reduces to a point-in-circle test with non-strict `<=`, so a boundary
point does count as colliding there. -/
theorem claim_C4 (p1 p2 c : ℝ × ℝ) (r : ℝ) :
    (seg_dr2 c p1 p2 ≠ 0 →
      (line_intersects_circle p1 p2 c r = true ↔
        ∃ t, 0 ≤ t ∧ t ≤ 1 ∧ seg_dist_sq c p1 p2 t < r * r)) ∧
    (seg_dr2 c p1 p2 ≠ 0 → (∀ t, 0 ≤ t → t ≤ 1 → r * r ≤ seg_dist_sq c p1 p2 t) →
      line_intersects_circle p1 p2 c r = false) ∧
    (seg_dr2 c p1 p2 = 0 →
      (line_intersects_circle p1 p2 c r = true ↔ seg_dist_sq c p1 p2 0 ≤ r * r)) := by
  refine ⟨line_intersects_circle_iff p1 p2 c r, fun h hall => ?_,
    line_intersects_circle_degenerate p1 p2 c r⟩
  rw [Bool.eq_false_iff]
  intro htrue
  obtain ⟨t, h0, h1, hlt⟩ := (line_intersects_circle_iff p1 p2 c r h).mp htrue
  exact absurd (hall t h0 h1) (not_le.mpr hlt)

theorem seg_dr2_degenerate_same (c p : ℝ × ℝ) : seg_dr2 c p p = 0 := by
  simp [seg_dr2, seg_dx, seg_dy]

/-- C4 (counterexample to the claim as stated): a zero-length segment whose
point lies exactly on the effective circle is reported as colliding, because
the degenerate branch of `line_intersects_circle` compares with `<=`, not the
strict `<` the claim asserts for every segment. -/
theorem claim_C4_cex :
    line_intersects_circle (0.001, 0) (0.001, 0) (0, 0) (0.001 * Kc) = true ∧
    seg_dist_sq (0, 0) (0.001, 0) (0.001, 0) 0 = 0.001 * Kc * (0.001 * Kc) := by
  have hm : to_meters (0, 0) (0.001, 0) = ((0 : ℝ), 0.001 * Kc) := by
    rw [to_meters_lat0]
    norm_num
  have hd : seg_dist_sq (0, 0) (0.001, 0) (0.001, 0) 0 = 0.001 * Kc * (0.001 * Kc) := by
    rw [seg_dist_sq_zero, hm]
    norm_num
  refine ⟨?_, hd⟩
  rw [line_intersects_circle, if_pos (seg_dr2_degenerate_same (0, 0) (0.001, 0)),
    decide_eq_true_eq, hm]
  norm_num

/-- C4 (witness): the degenerate branch applied at a concrete boundary point,
through the amended theorem. -/
theorem claim_C4_witness :
    line_intersects_circle (0.002, 0) (0.002, 0) (0, 0) (0.002 * Kc) = true := by
  have h := (claim_C4 (0.002, 0) (0.002, 0) (0, 0) (0.002 * Kc)).2.2
    (seg_dr2_degenerate_same (0, 0) (0.002, 0))
  rw [h, seg_dist_sq_zero, to_meters_lat0]
  norm_num

/-! ### C8: remove_nearest_obstacle removes the first-inserted nearest obstacle -/

theorem getD_mem (l : List Obstacle) (i : ℕ) (hi : i < l.length) : l.getD i obD ∈ l := by
  rw [List.getD_eq_getElem?_getD, List.getElem?_eq_getElem hi]
  exact List.getElem_mem hi

theorem nearest_loop_keep (coords : ℝ × ℝ) :
    ∀ (l : List Obstacle) (m : ℝ) (b : Obstacle),
      (∀ o ∈ l, m ≤ calculate_distance coords o.center) →
      nearest_loop coords l (some (m, b)) = some (m, b) := by
  intro l
  induction l with
  | nil => intro m b _; rfl
  | cons o rest ih =>
    intro m b h
    rw [nearest_loop, if_neg (not_lt.mpr (h o (List.mem_cons_self o rest)))]
    exact ih m b fun o' ho' => h o' (List.mem_cons_of_mem o ho')

theorem nearest_loop_improve (coords : ℝ × ℝ) :
    ∀ (l : List Obstacle) (m : ℝ) (b : Obstacle),
      (∃ o ∈ l, calculate_distance coords o.center < m) →
      ∃ i, ∃ hi : i < l.length,
        calculate_distance coords (l.getD i obD).center < m ∧
        (∀ j, j < l.length →
          calculate_distance coords (l.getD i obD).center ≤
            calculate_distance coords (l.getD j obD).center) ∧
        (∀ j, j < i →
          calculate_distance coords (l.getD i obD).center <
            calculate_distance coords (l.getD j obD).center) ∧
        nearest_loop coords l (some (m, b)) =
          some (calculate_distance coords (l.getD i obD).center, l.getD i obD) := by
  intro l
  induction l with
  | nil => rintro m b ⟨o, ho, -⟩; exact absurd ho (List.not_mem_nil o)
  | cons o rest ih =>
    intro m b hex
    by_cases hd : calculate_distance coords o.center < m
    · by_cases himp : ∃ o' ∈ rest, calculate_distance coords o'.center <
          calculate_distance coords o.center
      · obtain ⟨i', hi', hlt', hall', hstrict', heq'⟩ :=
          ih (calculate_distance coords o.center) o himp
        refine ⟨i' + 1, by simpa using Nat.succ_lt_succ hi', ?_, ?_, ?_, ?_⟩
        · rw [List.getD_cons_succ]; exact lt_trans hlt' hd
        · intro j hj
          cases j with
          | zero => rw [List.getD_cons_succ, List.getD_cons_zero]; exact le_of_lt hlt'
          | succ k =>
            rw [List.getD_cons_succ, List.getD_cons_succ]
            exact hall' k (by simpa using Nat.lt_of_succ_lt_succ hj)
        · intro j hj
          cases j with
          | zero => rw [List.getD_cons_succ, List.getD_cons_zero]; exact hlt'
          | succ k =>
            rw [List.getD_cons_succ, List.getD_cons_succ]
            exact hstrict' k (Nat.lt_of_succ_lt_succ hj)
        · rw [nearest_loop, if_pos hd, List.getD_cons_succ]
          exact heq'
      · push_neg at himp
        refine ⟨0, Nat.succ_pos _, ?_, ?_, ?_, ?_⟩
        · rw [List.getD_cons_zero]; exact hd
        · intro j hj
          cases j with
          | zero => exact le_refl _
          | succ k =>
            rw [List.getD_cons_zero, List.getD_cons_succ]
            exact himp _ (getD_mem rest k (by simpa using Nat.lt_of_succ_lt_succ hj))
        · intro j hj; exact absurd hj (Nat.not_lt_zero j)
        · rw [nearest_loop, if_pos hd, List.getD_cons_zero]
          exact nearest_loop_keep coords rest _ o himp
    · have hexr : ∃ o' ∈ rest, calculate_distance coords o'.center < m := by
        obtain ⟨o', ho', hlt'⟩ := hex
        rcases List.mem_cons.mp ho' with rfl | hmem
        · exact absurd hlt' hd
        · exact ⟨o', hmem, hlt'⟩
      obtain ⟨i', hi', hlt', hall', hstrict', heq'⟩ := ih m b hexr
      have hmle : m ≤ calculate_distance coords o.center := not_lt.mp hd
      refine ⟨i' + 1, by simpa using Nat.succ_lt_succ hi', ?_, ?_, ?_, ?_⟩
      · rw [List.getD_cons_succ]; exact hlt'
      · intro j hj
        cases j with
        | zero =>
          rw [List.getD_cons_succ, List.getD_cons_zero]
          exact le_of_lt (lt_of_lt_of_le hlt' hmle)
        | succ k =>
          rw [List.getD_cons_succ, List.getD_cons_succ]
          exact hall' k (by simpa using Nat.lt_of_succ_lt_succ hj)
      · intro j hj
        cases j with
        | zero =>
          rw [List.getD_cons_succ, List.getD_cons_zero]
          exact lt_of_lt_of_le hlt' hmle
        | succ k =>
          rw [List.getD_cons_succ, List.getD_cons_succ]
          exact hstrict' k (Nat.lt_of_succ_lt_succ hj)
      · rw [nearest_loop, if_neg hd, List.getD_cons_succ]
        exact heq'

theorem list_remove_eraseIdx :
    ∀ (l : List Obstacle) (i : ℕ), i < l.length →
      (∀ j, j < i → l.getD j obD ≠ l.getD i obD) →
      list_remove l (l.getD i obD) = l.eraseIdx i := by
  intro l
  induction l with
  | nil => intro i hi _; exact absurd hi (Nat.not_lt_zero i)
  | cons x xs ih =>
    intro i hi hne
    cases i with
    | zero =>
      rw [List.getD_cons_zero, list_remove, if_pos rfl]
      rfl
    | succ k =>
      rw [List.getD_cons_succ, list_remove,
        if_neg (by
          have := hne 0 (Nat.succ_pos k)
          rwa [List.getD_cons_zero, List.getD_cons_succ] at this)]
      rw [ih k (by simpa using Nat.lt_of_succ_lt_succ hi)
        (fun j hj => by
          have := hne (j + 1) (Nat.succ_lt_succ hj)
          rwa [List.getD_cons_succ, List.getD_cons_succ] at this)]
      rfl

/-- C8: on a non-empty registry, `remove_nearest_obstacle` removes and returns
the obstacle of minimum planar distance to the query point (the first-inserted
one among equidistant obstacles), ignoring `threshold_m` entirely; on an empty
registry it returns `none` and leaves the registry unchanged. -/
theorem claim_C8 (obstacles : List Obstacle) (coords : ℝ × ℝ) (t : ℝ) :
    (obstacles = [] → remove_nearest_obstacle obstacles coords t = (none, obstacles)) ∧
    (obstacles ≠ [] → ∃ i, ∃ _ : i < obstacles.length,
      (∀ j, j < obstacles.length →
        calculate_distance coords (obstacles.getD i obD).center ≤
          calculate_distance coords (obstacles.getD j obD).center) ∧
      (∀ j, j < i →
        calculate_distance coords (obstacles.getD i obD).center <
          calculate_distance coords (obstacles.getD j obD).center) ∧
      remove_nearest_obstacle obstacles coords t =
        (some (obstacles.getD i obD), obstacles.eraseIdx i)) ∧
    (∀ t' : ℝ, remove_nearest_obstacle obstacles coords t =
      remove_nearest_obstacle obstacles coords t') := by
  refine ⟨fun h => by rw [h]; rfl, fun h => ?_, fun t' => rfl⟩
  obtain ⟨o, rest, rfl⟩ := List.exists_cons_of_ne_nil h
  have hstep : nearest_loop coords (o :: rest) none =
      nearest_loop coords rest (some (calculate_distance coords o.center, o)) := rfl
  by_cases himp : ∃ o' ∈ rest, calculate_distance coords o'.center <
      calculate_distance coords o.center
  · obtain ⟨i', hi', hlt', hall', hstrict', heq'⟩ :=
      nearest_loop_improve coords rest (calculate_distance coords o.center) o himp
    refine ⟨i' + 1, by simpa using Nat.succ_lt_succ hi', ?_, ?_, ?_⟩
    · intro j hj
      cases j with
      | zero => rw [List.getD_cons_succ, List.getD_cons_zero]; exact le_of_lt hlt'
      | succ k =>
        rw [List.getD_cons_succ, List.getD_cons_succ]
        exact hall' k (by simpa using Nat.lt_of_succ_lt_succ hj)
    · intro j hj
      cases j with
      | zero => rw [List.getD_cons_succ, List.getD_cons_zero]; exact hlt'
      | succ k =>
        rw [List.getD_cons_succ, List.getD_cons_succ]
        exact hstrict' k (Nat.lt_of_succ_lt_succ hj)
    · have hlookup : nearest_loop coords (o :: rest) none =
          some (calculate_distance coords ((o :: rest).getD (i' + 1) obD).center,
            (o :: rest).getD (i' + 1) obD) := by
        rw [hstep, List.getD_cons_succ]
        exact heq'
      have hmem : (o :: rest).getD (i' + 1) obD ∈ o :: rest :=
        getD_mem _ _ (by simpa using Nat.succ_lt_succ hi')
      have hne0 : ¬o = (o :: rest).getD (i' + 1) obD := by
        intro heq0
        have h0 := hlt'
        rw [List.getD_cons_succ] at heq0
        rw [← heq0] at h0
        exact lt_irrefl _ h0
      rw [remove_nearest_obstacle]
      rw [if_neg (by simp), hlookup]
      simp only [remove_obstacle]
      rw [if_pos hmem]
      have herase : list_remove (o :: rest) ((o :: rest).getD (i' + 1) obD) =
          (o :: rest).eraseIdx (i' + 1) := by
        apply list_remove_eraseIdx (o :: rest) (i' + 1)
          (by simpa using Nat.succ_lt_succ hi')
        intro j hj
        cases j with
        | zero => rw [List.getD_cons_zero]; exact hne0
        | succ k =>
          rw [List.getD_cons_succ, List.getD_cons_succ]
          intro heqk
          have hk := hstrict' k (Nat.lt_of_succ_lt_succ hj)
          rw [heqk] at hk
          exact lt_irrefl _ hk
      rw [herase]
  · push_neg at himp
    refine ⟨0, Nat.succ_pos _, ?_, fun j hj => absurd hj (Nat.not_lt_zero j), ?_⟩
    · intro j hj
      cases j with
      | zero => exact le_refl _
      | succ k =>
        rw [List.getD_cons_zero, List.getD_cons_succ]
        exact himp _ (getD_mem rest k (by simpa using Nat.lt_of_succ_lt_succ hj))
    · have hlookup : nearest_loop coords (o :: rest) none =
          some (calculate_distance coords o.center, o) := by
        rw [hstep]
        exact nearest_loop_keep coords rest _ o himp
      rw [remove_nearest_obstacle]
      rw [if_neg (by simp), hlookup]
      simp only [remove_obstacle]
      rw [if_pos (List.mem_cons_self o rest), List.getD_cons_zero, list_remove, if_pos rfl]
      rfl

/-- C8 (witness): adding one obstacle to an empty registry and removing the
nearest obstacle at the same coordinates with threshold 50 removes exactly
that obstacle, leaving the registry empty. -/
theorem claim_C8_witness :
    remove_nearest_obstacle (add_obstacle [] (1, 2) 5 1).2 (1, 2) 50 =
      (some (add_obstacle [] (1, 2) 5 1).1, []) := by
  obtain ⟨i, hi, hmin, hstrict, heq⟩ :=
    (claim_C8 (add_obstacle [] (1, 2) 5 1).2 (1, 2) 50).2.1 (by simp [add_obstacle])
  have hi0 : i = 0 := by
    have : i < 1 := by simpa [add_obstacle] using hi
    omega
  subst hi0
  simpa [add_obstacle] using heq

/-! ### C5: scan/turn segmentation via the 0.6-median threshold -/

/-- C5: for a path of length at least 2, the segmenter labels each adjacent
pair, in original order, "scan" iff its planar distance strictly exceeds 0.6
times the median distance, where the median is the element at index
`floor(N/2)` of a sorted permutation of the N adjacent distances (no averaging
for even N). -/
theorem claim_C5 (ws : List (ℝ × ℝ)) (h : 2 ≤ ws.length) :
    ∃ s : List ℝ,
      List.Perm ((List.range (ws.length - 1)).map fun i =>
        calculate_distance (ws.getD i (0, 0)) (ws.getD (i + 1) (0, 0))) s ∧
      s.Sorted (· ≤ ·) ∧
      identify_scan_segments ws = (List.range (ws.length - 1)).map fun i =>
        (if calculate_distance (ws.getD i (0, 0)) (ws.getD (i + 1) (0, 0)) >
            s.getD ((ws.length - 1) / 2) 0 * 0.6 then "scan" else "turn", i, i + 1) := by
  refine ⟨((List.range (ws.length - 1)).map fun i =>
      calculate_distance (ws.getD i (0, 0)) (ws.getD (i + 1) (0, 0))).insertionSort (· ≤ ·),
    (List.perm_insertionSort _ _).symm, List.sorted_insertionSort _ _, ?_⟩
  have h2 : ¬ws.length < 2 := not_lt.mpr h
  have hne : ((List.range (ws.length - 1)).map fun i =>
      (i, i + 1, calculate_distance (ws.getD i (0, 0)) (ws.getD (i + 1) (0, 0)))) ≠
      ([] : List (ℕ × ℕ × ℝ)) := by
    rw [Ne, List.map_eq_nil_iff, List.range_eq_nil]
    omega
  rw [identify_scan_segments, if_neg h2, if_neg hne, List.map_map]
  congr 1
  funext i
  simp only [Function.comp_apply]
  rw [List.length_insertionSort, List.length_map, List.length_range]

theorem sqrt_num {a b : ℝ} (hb : 0 ≤ b) (h : a = b ^ 2) : Real.sqrt a = b := by
  rw [h, Real.sqrt_sq hb]

theorem dist_vertical (q q' : ℝ) (hle : q ≤ q') :
    calculate_distance (q / Kc, 0 / Kc) (q' / Kc, 0 / Kc) = q' - q := by
  rw [calculate_distance_div]
  rw [show ((0 : ℝ) - 0) = 0 by ring]
  rw [show (0 * Real.cos ((q + q') / (2 * earth_radius_m))) ^ 2 + (q' - q) ^ 2 =
    (q' - q) ^ 2 by ring]
  exact sqrt_num (by linarith) rfl

/-- C5 (witness): on the concrete five-point path with consecutive distances
100, 5, 100, 5 meters, the median is 100, the threshold 60, and the labels are
scan, turn, scan, turn. -/
theorem claim_C5_witness :
    identify_scan_segments path5 =
      [("scan", 0, 1), ("turn", 1, 2), ("scan", 2, 3), ("turn", 3, 4)] := by
  have hlen : path5.length = 5 := by simp [path5]
  obtain ⟨s, hperm, hsorted, hid⟩ := claim_C5 path5 (by rw [hlen]; omega)
  have hz : ((0 : ℝ), (0 : ℝ)) = ((0 : ℝ) / Kc, (0 : ℝ) / Kc) := by norm_num
  have hc : ∀ q : ℝ, ((q / Kc : ℝ), (0 : ℝ)) = ((q : ℝ) / Kc, (0 : ℝ) / Kc) := by
    intro q
    norm_num
  have e1 : calculate_distance ((0 : ℝ), (0 : ℝ)) (100 / Kc, 0) = 100 := by
    rw [hz, hc 100, dist_vertical 0 100 (by norm_num)]
    norm_num
  have e2 : calculate_distance ((100 / Kc : ℝ), (0 : ℝ)) (105 / Kc, 0) = 5 := by
    rw [hc 100, hc 105, dist_vertical 100 105 (by norm_num)]
    norm_num
  have e3 : calculate_distance ((105 / Kc : ℝ), (0 : ℝ)) (205 / Kc, 0) = 100 := by
    rw [hc 105, hc 205, dist_vertical 105 205 (by norm_num)]
    norm_num
  have e4 : calculate_distance ((205 / Kc : ℝ), (0 : ℝ)) (210 / Kc, 0) = 5 := by
    rw [hc 205, hc 210, dist_vertical 205 210 (by norm_num)]
    norm_num
  have hdists : (List.range (path5.length - 1)).map (fun i =>
      calculate_distance (path5.getD i (0, 0)) (path5.getD (i + 1) (0, 0))) =
      [100, 5, 100, 5] := by
    rw [hlen]
    rw [show List.range (5 - 1) = [0, 1, 2, 3] from rfl]
    simp only [List.map_cons, List.map_nil, path5, List.getD_cons_zero, List.getD_cons_succ]
    rw [e1, e2, e3, e4]
  have hsorted4 : List.Sorted (· ≤ ·) ([5, 5, 100, 100] : List ℝ) := by
    norm_num [List.sorted_cons]
  have hpermc : List.Perm ([100, 5, 100, 5] : List ℝ) [5, 5, 100, 100] := by
    have p1 : List.Perm ([100, 5, 100, 5] : List ℝ) [5, 100, 100, 5] :=
      List.Perm.swap 5 100 [100, 5]
    have p2 : List.Perm ([100, 100, 5] : List ℝ) [100, 5, 100] :=
      List.Perm.cons 100 (List.Perm.swap 5 100 [])
    have p3 : List.Perm ([100, 5, 100] : List ℝ) [5, 100, 100] :=
      List.Perm.swap 5 100 [100]
    exact p1.trans (List.Perm.cons 5 (p2.trans p3))
  have hs : s = [5, 5, 100, 100] := by
    refine List.eq_of_perm_of_sorted ?_ hsorted hsorted4
    exact (hperm.symm.trans (by rw [hdists])).trans hpermc
  rw [hid, hs, hlen]
  rw [show List.range (5 - 1) = [0, 1, 2, 3] from rfl]
  simp only [List.map_cons, List.map_nil, path5, List.getD_cons_zero, List.getD_cons_succ]
  simp only [e1, e2, e3, e4]
  norm_num

/-! ### C9, C3, C7: detour synthesis and its fallbacks -/

theorem detour_vecs_same_sq (c p1 p2 : ℝ × ℝ) (off : ℝ) :
    (detour1_vec c p1 p2 off).1 ^ 2 + (detour1_vec c p1 p2 off).2 ^ 2 =
      (detour2_vec c p1 p2 off).1 ^ 2 + (detour2_vec c p1 p2 off).2 ^ 2 := by
  simp only [detour1_vec, detour2_vec]
  ring

theorem chosen_detour_eq (c p1 p2 : ℝ × ℝ) (off : ℝ) :
    chosen_detour c p1 p2 off = detour2_vec c p1 p2 off := by
  rw [chosen_detour, if_neg]
  rw [detour_vecs_same_sq]
  exact lt_irrefl _

theorem seg_len_pos_ne (c p1 p2 : ℝ × ℝ) (hlen : (0.001 : ℝ) ≤ seg_len c p1 p2) :
    seg_len c p1 p2 ≠ 0 :=
  ne_of_gt (lt_of_lt_of_le (by norm_num) hlen)

theorem generate_tangent_detour_eval (p1 p2 : ℝ × ℝ) (o : Obstacle) (i1 i2 : ℝ × ℝ)
    (hlen : (0.001 : ℝ) ≤ seg_len o.center p1 p2) :
    generate_tangent_detour p1 p2 o i1 i2 =
      [to_latlon o.center
         ((point_at o.center p1 p2 0.25).1 +
            (chosen_detour o.center p1 p2 (o.effective_radius * 1.2)).1,
          (point_at o.center p1 p2 0.25).2 +
            (chosen_detour o.center p1 p2 (o.effective_radius * 1.2)).2),
       to_latlon o.center
         ((point_at o.center p1 p2 0.75).1 +
            (chosen_detour o.center p1 p2 (o.effective_radius * 1.2)).1,
          (point_at o.center p1 p2 0.75).2 +
            (chosen_detour o.center p1 p2 (o.effective_radius * 1.2)).2)] := by
  have hne := seg_len_pos_ne o.center p1 p2 hlen
  have hux : unit_ux o.center p1 p2 * seg_len o.center p1 p2 = seg_dx o.center p1 p2 :=
    div_mul_cancel₀ _ hne
  have huy : unit_uy o.center p1 p2 * seg_len o.center p1 p2 = seg_dy o.center p1 p2 :=
    div_mul_cancel₀ _ hne
  rw [generate_tangent_detour, if_neg (not_lt.mpr hlen)]
  simp only [point_at]
  rw [show unit_ux o.center p1 p2 * seg_len o.center p1 p2 * 0.25 =
      0.25 * (unit_ux o.center p1 p2 * seg_len o.center p1 p2) by ring,
    show unit_uy o.center p1 p2 * seg_len o.center p1 p2 * 0.25 =
      0.25 * (unit_uy o.center p1 p2 * seg_len o.center p1 p2) by ring,
    show unit_ux o.center p1 p2 * seg_len o.center p1 p2 * 0.75 =
      0.75 * (unit_ux o.center p1 p2 * seg_len o.center p1 p2) by ring,
    show unit_uy o.center p1 p2 * seg_len o.center p1 p2 * 0.75 =
      0.75 * (unit_uy o.center p1 p2 * seg_len o.center p1 p2) by ring,
    hux, huy]

/-- C9: the two candidate offset vectors are mirror images with identical
squared magnitude, so the strict smaller-magnitude selection always fails and
the detour side always resolves to the fixed tie-break `detour2 = -r'*n`; the
bypass points are built from that offset. -/
theorem claim_C9 (p1 p2 : ℝ × ℝ) (o : Obstacle) (i1 i2 : ℝ × ℝ)
    (hlen : (0.001 : ℝ) ≤ seg_len o.center p1 p2) :
    (detour1_vec o.center p1 p2 (o.effective_radius * 1.2)).1 ^ 2 +
        (detour1_vec o.center p1 p2 (o.effective_radius * 1.2)).2 ^ 2 =
      (detour2_vec o.center p1 p2 (o.effective_radius * 1.2)).1 ^ 2 +
        (detour2_vec o.center p1 p2 (o.effective_radius * 1.2)).2 ^ 2 ∧
    chosen_detour o.center p1 p2 (o.effective_radius * 1.2) =
      detour2_vec o.center p1 p2 (o.effective_radius * 1.2) ∧
    generate_tangent_detour p1 p2 o i1 i2 =
      [to_latlon o.center
         ((point_at o.center p1 p2 0.25).1 +
            (detour2_vec o.center p1 p2 (o.effective_radius * 1.2)).1,
          (point_at o.center p1 p2 0.25).2 +
            (detour2_vec o.center p1 p2 (o.effective_radius * 1.2)).2),
       to_latlon o.center
         ((point_at o.center p1 p2 0.75).1 +
            (detour2_vec o.center p1 p2 (o.effective_radius * 1.2)).1,
          (point_at o.center p1 p2 0.75).2 +
            (detour2_vec o.center p1 p2 (o.effective_radius * 1.2)).2)] := by
  refine ⟨detour_vecs_same_sq _ _ _ _, chosen_detour_eq _ _ _ _, ?_⟩
  rw [generate_tangent_detour_eval p1 p2 o i1 i2 hlen, chosen_detour_eq]

/-- C7: the detour step resolves every degenerate case by falling back to the
unmodified endpoints: when the quadratic coefficient `a` vanishes, or the
discriminant is negative, or one of the two roots lies outside `[0, 1]`, or a
boundary polygon is supplied that rejects every bypass point, the scan-line
segmentation returns exactly `[p1, p2]`. -/
theorem claim_C7 (p1 p2 : ℝ × ℝ) (o : Obstacle) (rest : List Obstacle)
    (boundary : Option (List (ℝ × ℝ)))
    (h : seg_dr2 o.center p1 p2 = 0 ∨
      quad_disc o.center p1 p2 o.effective_radius < 0 ∨
      ¬(0 ≤ root_t1 o.center p1 p2 o.effective_radius ∧
        root_t1 o.center p1 p2 o.effective_radius ≤ 1) ∨
      ¬(0 ≤ root_t2 o.center p1 p2 o.effective_radius ∧
        root_t2 o.center p1 p2 o.effective_radius ≤ 1) ∨
      (∃ poly, boundary = some poly ∧
        ∀ dp ∈ generate_tangent_detour p1 p2 o
          ((calculate_line_circle_intersection p1 p2 o).getD 0 (0, 0))
          ((calculate_line_circle_intersection p1 p2 o).getD 1 (0, 0)),
          point_in_polygon dp poly = false)) :
    segment_scan_line p1 p2 (o :: rest) boundary = [p1, p2] := by
  rcases h with ha | hdisc | ht1 | ht2 | ⟨poly, hpoly, hrej⟩
  · rw [segment_scan_line,
      if_pos (by rw [calculate_line_circle_intersection, if_pos (Or.inr ha)]; norm_num)]
  · rw [segment_scan_line,
      if_pos (by rw [calculate_line_circle_intersection, if_pos (Or.inl hdisc)]; norm_num)]
  · rw [segment_scan_line, if_pos ?_]
    by_cases hcond : quad_disc o.center p1 p2 o.effective_radius < 0 ∨
        seg_dr2 o.center p1 p2 = 0
    · rw [calculate_line_circle_intersection, if_pos hcond]
      norm_num
    · rw [calculate_line_circle_intersection, if_neg hcond, List.length_map]
      have : List.filter (fun t => decide (0 ≤ t ∧ t ≤ 1))
          [root_t1 o.center p1 p2 o.effective_radius,
           root_t2 o.center p1 p2 o.effective_radius] =
          List.filter (fun t => decide (0 ≤ t ∧ t ≤ 1))
            [root_t2 o.center p1 p2 o.effective_radius] := by
        rw [List.filter_cons, if_neg (by simpa using ht1)]
      rw [this]
      have hle := List.length_filter_le (fun t => decide (0 ≤ t ∧ t ≤ 1))
        [root_t2 o.center p1 p2 o.effective_radius]
      simp only [List.length_singleton] at hle
      omega
  · rw [segment_scan_line, if_pos ?_]
    by_cases hcond : quad_disc o.center p1 p2 o.effective_radius < 0 ∨
        seg_dr2 o.center p1 p2 = 0
    · rw [calculate_line_circle_intersection, if_pos hcond]
      norm_num
    · rw [calculate_line_circle_intersection, if_neg hcond, List.length_map]
      rw [show [root_t1 o.center p1 p2 o.effective_radius,
          root_t2 o.center p1 p2 o.effective_radius] =
          [root_t1 o.center p1 p2 o.effective_radius] ++
            [root_t2 o.center p1 p2 o.effective_radius] from rfl,
        List.filter_append]
      have h2 : List.filter (fun t => decide (0 ≤ t ∧ t ≤ 1))
          [root_t2 o.center p1 p2 o.effective_radius] = [] := by
        rw [List.filter_cons, if_neg (by simpa using ht2), List.filter_nil]
      rw [h2, List.append_nil]
      have hle := List.length_filter_le (fun t => decide (0 ≤ t ∧ t ≤ 1))
        [root_t1 o.center p1 p2 o.effective_radius]
      simp only [List.length_singleton] at hle
      omega
  · rw [segment_scan_line]
    by_cases hlt : (calculate_line_circle_intersection p1 p2 o).length < 2
    · rw [if_pos hlt]
    · rw [if_neg hlt, if_pos]
      rw [List.filter_eq_nil_iff]
      intro dp hdp
      rw [hpoly, passes_boundary]
      simp only [Bool.not_eq_true]
      exact hrej dp hdp

/-- C7 (witness): a degenerate zero-length segment (`a == 0`) falls back to
the original endpoints. -/
theorem claim_C7_witness :
    segment_scan_line (0, 0) (0, 0) [⟨(0, 0), 1, 1⟩] none = [(0, 0), (0, 0)] :=
  claim_C7 (0, 0) (0, 0) ⟨(0, 0), 1, 1⟩ [] none
    (Or.inl (seg_dr2_degenerate_same (0, 0) (0, 0)))

/-- C3 (amended): for a colliding scan segment whose line-circle quadratic has
both roots inside `[0, 1]`, whose local length is at least the 0.001-meter
degeneracy cutoff, and whose bypass points all pass the boundary check, the
detour planner returns exactly `[p1, entry, exit, p2]`; entry and exit are the
points at parametric positions 0.25 and 0.75 along the segment, both displaced
by the same chosen offset vector, which is perpendicular to the segment
direction and has squared magnitude `(1.2 * effective_radius)^2`, and the 0.25
point precedes the 0.75 point. -/
theorem claim_C3 (p1 p2 : ℝ × ℝ) (o : Obstacle) (rest : List Obstacle)
    (boundary : Option (List (ℝ × ℝ)))
    (hcol : line_intersects_circle p1 p2 o.center o.effective_radius = true)
    (ha : seg_dr2 o.center p1 p2 ≠ 0)
    (ht1 : 0 ≤ root_t1 o.center p1 p2 o.effective_radius ∧
      root_t1 o.center p1 p2 o.effective_radius ≤ 1)
    (ht2 : 0 ≤ root_t2 o.center p1 p2 o.effective_radius ∧
      root_t2 o.center p1 p2 o.effective_radius ≤ 1)
    (hlen : (0.001 : ℝ) ≤ seg_len o.center p1 p2)
    (hdisc : ¬quad_disc o.center p1 p2 o.effective_radius < 0)
    (hb : ∀ dp ∈ generate_tangent_detour p1 p2 o
        ((calculate_line_circle_intersection p1 p2 o).getD 0 (0, 0))
        ((calculate_line_circle_intersection p1 p2 o).getD 1 (0, 0)),
        passes_boundary boundary dp = true) :
    segment_scan_line p1 p2 (o :: rest) boundary =
      [p1,
       to_latlon o.center
         ((point_at o.center p1 p2 0.25).1 +
            (chosen_detour o.center p1 p2 (o.effective_radius * 1.2)).1,
          (point_at o.center p1 p2 0.25).2 +
            (chosen_detour o.center p1 p2 (o.effective_radius * 1.2)).2),
       to_latlon o.center
         ((point_at o.center p1 p2 0.75).1 +
            (chosen_detour o.center p1 p2 (o.effective_radius * 1.2)).1,
          (point_at o.center p1 p2 0.75).2 +
            (chosen_detour o.center p1 p2 (o.effective_radius * 1.2)).2),
       p2] ∧
    (chosen_detour o.center p1 p2 (o.effective_radius * 1.2)).1 * seg_dx o.center p1 p2 +
      (chosen_detour o.center p1 p2 (o.effective_radius * 1.2)).2 * seg_dy o.center p1 p2 = 0 ∧
    (chosen_detour o.center p1 p2 (o.effective_radius * 1.2)).1 ^ 2 +
      (chosen_detour o.center p1 p2 (o.effective_radius * 1.2)).2 ^ 2 =
      (o.effective_radius * 1.2) ^ 2 := by
  have hlne := seg_len_pos_ne o.center p1 p2 hlen
  have hintersections : calculate_line_circle_intersection p1 p2 o =
      [to_latlon o.center (point_at o.center p1 p2 (root_t1 o.center p1 p2 o.effective_radius)),
       to_latlon o.center (point_at o.center p1 p2 (root_t2 o.center p1 p2 o.effective_radius))] := by
    rw [calculate_line_circle_intersection, if_neg (by push_neg; exact ⟨not_lt.mp hdisc, ha⟩)]
    rw [List.filter_cons, if_pos (by simpa using ht1), List.filter_cons,
      if_pos (by simpa using ht2), List.filter_nil, List.map_cons, List.map_cons, List.map_nil]
  have hgen := generate_tangent_detour_eval p1 p2 o
    ((calculate_line_circle_intersection p1 p2 o).getD 0 (0, 0))
    ((calculate_line_circle_intersection p1 p2 o).getD 1 (0, 0)) hlen
  have hfilter : (generate_tangent_detour p1 p2 o
      ((calculate_line_circle_intersection p1 p2 o).getD 0 (0, 0))
      ((calculate_line_circle_intersection p1 p2 o).getD 1 (0, 0))).filter
      (passes_boundary boundary) =
      generate_tangent_detour p1 p2 o
        ((calculate_line_circle_intersection p1 p2 o).getD 0 (0, 0))
        ((calculate_line_circle_intersection p1 p2 o).getD 1 (0, 0)) :=
    List.filter_eq_self.mpr hb
  refine ⟨?_, ?_, ?_⟩
  · rw [segment_scan_line, if_neg (by rw [hintersections]; norm_num), if_neg ?_, hfilter, hgen]
    · rfl
    · rw [hfilter, hgen]
      simp
  · rw [chosen_detour_eq]
    simp only [detour2_vec, perp_x, perp_y, unit_ux, unit_uy]
    field_simp
    ring
  · rw [chosen_detour_eq]
    have hsq3 : seg_len o.center p1 p2 ^ 2 =
        seg_dx o.center p1 p2 * seg_dx o.center p1 p2 +
          seg_dy o.center p1 p2 * seg_dy o.center p1 p2 := by
      have h := Real.mul_self_sqrt (seg_dr2_nonneg o.center p1 p2)
      simp only [seg_dr2] at h
      rw [sq]
      exact h
    simp only [detour2_vec, perp_x, perp_y, unit_ux, unit_uy]
    field_simp
    linear_combination (-((o.effective_radius * 1.2) ^ 2)) * hsq3

/-! ### C1, C6: the assembler returns collision-free paths unchanged -/

theorem take_succ_getD (l : List (ℝ × ℝ)) (i : ℕ) (hi : i < l.length) :
    l.take (i + 1) = l.take i ++ [l.getD i (0, 0)] := by
  rw [List.take_succ, List.getD_eq_getElem?_getD, List.getElem?_eq_getElem hi]
  rfl

theorem append_if_new_mem (ws : List (ℝ × ℝ)) (st : List (ℝ × ℝ) × List ℕ) (i : ℕ)
    (h : i ∈ st.2) : append_if_new ws st i = st := by
  rw [append_if_new, if_pos h]

theorem append_if_new_not_mem (ws : List (ℝ × ℝ)) (st : List (ℝ × ℝ) × List ℕ) (i : ℕ)
    (h : i ∉ st.2) :
    append_if_new ws st i = (st.1 ++ [ws.getD i (0, 0)], st.2 ++ [i]) := by
  rw [append_if_new, if_neg h]

theorem assemble_pair_step (obstacles : List Obstacle) (ws : List (ℝ × ℝ))
    (boundary : Option (List (ℝ × ℝ))) (st : List (ℝ × ℝ) × List ℕ) (lbl : String) (i : ℕ)
    (hcol : check_segment_collision obstacles (ws.getD i (0, 0)) (ws.getD (i + 1) (0, 0)) = []) :
    assemble_step obstacles ws boundary st (lbl, i, i + 1) =
      append_if_new ws (append_if_new ws st i) (i + 1) := by
  simp only [assemble_step]
  by_cases hlbl : lbl = "scan"
  · rw [if_pos hlbl, if_pos hcol]
  · rw [if_neg hlbl]

theorem assemble_fold_nocol (obstacles : List Obstacle) (ws : List (ℝ × ℝ))
    (boundary : Option (List (ℝ × ℝ))) (lbl : ℕ → String)
    (hcol : ∀ i, i + 1 < ws.length →
      check_segment_collision obstacles (ws.getD i (0, 0)) (ws.getD (i + 1) (0, 0)) = []) :
    ∀ (m k : ℕ) (P : List ℕ), k + 1 + m ≤ ws.length → (∀ j, j ∈ P ↔ j ≤ k) →
      ∃ P' : List ℕ,
        ((List.range' k m).map fun i => (lbl i, i, i + 1)).foldl
            (assemble_step obstacles ws boundary) (ws.take (k + 1), P) =
          (ws.take (k + 1 + m), P') ∧
        (∀ j, j ∈ P' ↔ j ≤ k + m) := by
  intro m
  induction m with
  | zero =>
    intro k P hle hP
    exact ⟨P, by simp, by simpa using hP⟩
  | succ m ih =>
    intro k P hle hP
    have hk1 : k + 1 < ws.length := by omega
    rw [List.range'_succ, List.map_cons, List.foldl_cons,
      assemble_pair_step obstacles ws boundary _ (lbl k) k (hcol k hk1),
      append_if_new_mem ws _ k ((hP k).mpr (le_refl k)),
      append_if_new_not_mem ws _ (k + 1) (fun hmem => by
        have := (hP (k + 1)).mp hmem
        omega)]
    rw [show (ws.take (k + 1), P).1 = ws.take (k + 1) from rfl,
      show (ws.take (k + 1), P).2 = P from rfl,
      ← take_succ_getD ws (k + 1) hk1]
    obtain ⟨P', hfold, hP'⟩ := ih (k + 1) (P ++ [k + 1]) (by omega) (fun j => by
      rw [List.mem_append, hP j, List.mem_singleton]
      omega)
    rw [show k + 1 + 1 + m = k + 1 + (m + 1) by omega] at hfold
    exact ⟨P', hfold, fun j => by rw [hP' j]; omega⟩

theorem sweep_skip (ws : List (ℝ × ℝ)) :
    ∀ (l : List ℕ) (st : List (ℝ × ℝ) × List ℕ), (∀ i ∈ l, i ∈ st.2) →
      l.foldl (append_if_new ws) st = st := by
  intro l
  induction l with
  | nil => intro st _; rfl
  | cons i rest ih =>
    intro st h
    rw [List.foldl_cons, append_if_new_mem ws st i (h i (List.mem_cons_self i rest))]
    exact ih st fun j hj => h j (List.mem_cons_of_mem i hj)

theorem sweep_build (ws : List (ℝ × ℝ)) :
    ∀ (m k : ℕ) (P : List ℕ), k + m = ws.length → (∀ j, j ∈ P ↔ j < k) →
      ((List.range' k m).foldl (append_if_new ws) (ws.take k, P)).1 = ws := by
  intro m
  induction m with
  | zero =>
    intro k P hk _
    rw [show k = ws.length by omega]
    simp [List.take_length]
  | succ m ih =>
    intro k P hk hP
    have hklt : k < ws.length := by omega
    rw [List.range'_succ, List.foldl_cons,
      append_if_new_not_mem ws _ k (fun hmem => by
        have := (hP k).mp hmem
        omega)]
    rw [show (ws.take k, P).1 = ws.take k from rfl, show (ws.take k, P).2 = P from rfl,
      ← take_succ_getD ws k hklt]
    exact ih (k + 1) (P ++ [k]) (by omega) (fun j => by
      rw [List.mem_append, hP j, List.mem_singleton]
      omega)

theorem route_no_collision (obstacles : List Obstacle) (ws : List (ℝ × ℝ))
    (boundary : Option (List (ℝ × ℝ)))
    (hcol : ∀ i, i + 1 < ws.length →
      check_segment_collision obstacles (ws.getD i (0, 0)) (ws.getD (i + 1) (0, 0)) = []) :
    filter_waypoints_with_detour obstacles ws boundary = ws := by
  by_cases hempty : ws.isEmpty || obstacles.isEmpty
  · rw [filter_waypoints_with_detour, if_pos hempty]
  · rw [filter_waypoints_with_detour, if_neg hempty]
    by_cases hlen : ws.length < 2
    · rw [identify_scan_segments, if_pos hlen]
      rw [List.foldl_nil]
      have hsweep := sweep_build ws ws.length 0 [] (by omega) (fun j => by simp)
      rw [List.take_zero] at hsweep
      rw [show List.range ws.length = List.range' 0 ws.length from List.range_eq_range' _]
      exact hsweep
    · have h2 : 2 ≤ ws.length := not_lt.mp hlen
      obtain ⟨m, hm⟩ : ∃ m, ws.length - 1 = m + 1 := ⟨ws.length - 2, by omega⟩
      have hshape : ∃ lbl : ℕ → String, identify_scan_segments ws =
          (List.range (ws.length - 1)).map fun i => (lbl i, i, i + 1) := by
        refine ⟨fun i =>
          if calculate_distance (ws.getD i (0, 0)) (ws.getD (i + 1) (0, 0)) >
              (((List.range (ws.length - 1)).map fun i =>
                calculate_distance (ws.getD i (0, 0)) (ws.getD (i + 1) (0, 0))).insertionSort
                (· ≤ ·)).getD
                ((((List.range (ws.length - 1)).map fun i =>
                  calculate_distance (ws.getD i (0, 0)) (ws.getD (i + 1) (0, 0))).insertionSort
                  (· ≤ ·)).length / 2) 0 * 0.6 then "scan" else "turn", ?_⟩
        have hne : ((List.range (ws.length - 1)).map fun i =>
            (i, i + 1, calculate_distance (ws.getD i (0, 0)) (ws.getD (i + 1) (0, 0)))) ≠
            ([] : List (ℕ × ℕ × ℝ)) := by
          rw [Ne, List.map_eq_nil_iff, List.range_eq_nil]
          omega
        rw [identify_scan_segments, if_neg hlen, if_neg hne, List.map_map]
        rfl
      obtain ⟨lbl, hid⟩ := hshape
      rw [hid, hm, List.range_eq_range' _, List.range'_succ, List.map_cons, List.foldl_cons,
        assemble_pair_step obstacles ws boundary _ (lbl 0) 0 (hcol 0 (by omega)),
        append_if_new_not_mem ws _ 0 (by simp),
        append_if_new_not_mem ws _ 1 (by simp)]
      have h1lt : 1 < ws.length := by omega
      have h0lt : 0 < ws.length := by omega
      have htake2 : (([] : List (ℝ × ℝ)) ++ [ws.getD 0 (0, 0)]) ++ [ws.getD 1 (0, 0)] =
          ws.take (1 + 1) := by
        rw [take_succ_getD ws 1 h1lt, take_succ_getD ws 0 h0lt, List.take_zero]
      simp only [htake2]
      obtain ⟨P', hfold, hP'⟩ := assemble_fold_nocol obstacles ws boundary lbl hcol m 1
        (([] : List ℕ) ++ [0] ++ [1])
        (by omega)
        (fun j => by simp; omega)
      rw [hfold]
      have hfin : ws.take (1 + 1 + m) = ws := by
        rw [show 1 + 1 + m = ws.length by omega]
        exact List.take_length ..
      rw [hfin]
      rw [show List.range ws.length = List.range' 0 ws.length from List.range_eq_range' _]
      rw [sweep_skip ws (List.range' 0 ws.length) (ws, P') (fun i hi => by
        rw [hP' i]
        have h2i := List.mem_range'_1.mp hi
        omega)]

/-- C1: when no adjacent-pair segment of the waypoint sequence collides with
any registered obstacle (in particular for sequences of length 0 or 1, and
for an empty registry, where the hypothesis holds vacuously), the route
filter returns the input sequence unchanged, same waypoints in the same
order. -/
theorem claim_C1 (obstacles : List Obstacle) (ws : List (ℝ × ℝ))
    (boundary : Option (List (ℝ × ℝ)))
    (hcol : ∀ i, i + 1 < ws.length →
      check_segment_collision obstacles (ws.getD i (0, 0)) (ws.getD (i + 1) (0, 0)) = []) :
    filter_waypoints_with_detour obstacles ws boundary = ws :=
  route_no_collision obstacles ws boundary hcol

/-- C1 (witness): a three-point path (with a duplicated waypoint) and an empty
registry pass through unchanged; the no-collision hypothesis holds because no
obstacle is registered. -/
theorem claim_C1_witness :
    filter_waypoints_with_detour [] [((1 : ℝ), (2 : ℝ)), (3, 4), (3, 4)] none =
      [((1 : ℝ), (2 : ℝ)), (3, 4), (3, 4)] :=
  claim_C1 [] [((1 : ℝ), (2 : ℝ)), (3, 4), (3, 4)] none (fun i _ => rfl)

/-- C6 (amended): one routing pass is idempotent exactly on outputs none of
whose adjacent segments still collides: if no segment of `route(waypoints)`
collides with any registered obstacle, then applying `route` again returns it
unchanged.  Unconditional idempotence is false (see the counterexample): a
detour can still cross another obstacle, and the second pass then changes the
path. -/
theorem claim_C6 (obstacles : List Obstacle) (ws : List (ℝ × ℝ))
    (boundary : Option (List (ℝ × ℝ)))
    (hcol : ∀ i, i + 1 < (filter_waypoints_with_detour obstacles ws boundary).length →
      check_segment_collision obstacles
        ((filter_waypoints_with_detour obstacles ws boundary).getD i (0, 0))
        ((filter_waypoints_with_detour obstacles ws boundary).getD (i + 1) (0, 0)) = []) :
    filter_waypoints_with_detour obstacles
        (filter_waypoints_with_detour obstacles ws boundary) boundary =
      filter_waypoints_with_detour obstacles ws boundary :=
  route_no_collision obstacles _ boundary hcol

/-- C6 (witness): with an empty registry the hypothesis holds vacuously and a
second pass changes nothing. -/
theorem claim_C6_witness :
    filter_waypoints_with_detour []
        (filter_waypoints_with_detour [] [((5 : ℝ), (6 : ℝ))] none) none =
      filter_waypoints_with_detour [] [((5 : ℝ), (6 : ℝ))] none :=
  claim_C6 [] [((5 : ℝ), (6 : ℝ))] none (fun i _ => rfl)

/-! ### Concrete evaluation helpers -/

theorem tl_zero (x y : ℝ) : to_latlon (0, 0) (x, y) = (y / Kc, x / Kc) := by
  rw [to_latlon_lat0, zero_add]

theorem tm_qr (q r : ℝ) : to_meters (0, 0) (q / Kc, r / Kc) = (r, q) := by
  rw [to_meters_lat0, Prod.mk.injEq, sub_zero]
  exact ⟨div_mul_cancel₀ r Kc_ne, div_mul_cancel₀ q Kc_ne⟩

theorem tm_lat0pt (r : ℝ) : to_meters (0, 0) (0, r / Kc) = (r, 0) := by
  rw [to_meters_lat0, Prod.mk.injEq, sub_zero]
  exact ⟨div_mul_cancel₀ r Kc_ne, zero_mul Kc⟩

theorem tm_p1a : to_meters (0, 0) p1a = (-10, 0) := tm_lat0pt (-10)

theorem tm_p2a : to_meters (0, 0) p2a = (10, 0) := tm_lat0pt 10

theorem tm_entryA : to_meters (0, 0) entryA = (-5, -4.8) := tm_qr (-4.8) (-5)

theorem tm_exitA : to_meters (0, 0) exitA = (5, -4.8) := tm_qr (-4.8) 5

theorem tm_p1c : to_meters (0, 0) p1c = (-0.0004, 0) := tm_lat0pt (-0.0004)

theorem tm_p2c : to_meters (0, 0) p2c = (0.0004, 0) := tm_lat0pt 0.0004

theorem tm_p1w : to_meters (0, 0) p1w = (-0.004, 0) := tm_lat0pt (-0.004)

theorem tm_p2w : to_meters (0, 0) p2w = (0.004, 0) := tm_lat0pt 0.004

theorem O1_center : O1.center = (0, 0) := rfl

theorem O2_center : O2.center = (0, 0) := rfl

theorem O1_eff : O1.effective_radius = 4 := by
  simp [O1, Obstacle.effective_radius]

theorem O2_eff : O2.effective_radius = 5 := by
  simp [O2, Obstacle.effective_radius]

theorem oc3_eff : oc3.effective_radius = 0.0001 := by
  simp [oc3, Obstacle.effective_radius]

theorem ow3_eff : ow3.effective_radius = 0.001 := by
  simp [ow3, Obstacle.effective_radius]

theorem obC2_eff : obC2.effective_radius = 51 := by
  simp [obC2, Obstacle.effective_radius]
  norm_num

theorem pair_ne_left {a b c d : ℝ} (h : a ≠ c) : (a, b) ≠ (c, d) := fun hh =>
  h (congrArg Prod.fst hh)

theorem pair_ne_right {a b c d : ℝ} (h : b ≠ d) : (a, b) ≠ (c, d) := fun hh =>
  h (congrArg Prod.snd hh)

theorem div_Kc_ne {a b : ℝ} (h : a ≠ b) : a / Kc ≠ b / Kc := fun hh =>
  h (by
    have h0 := Kc_ne
    field_simp at hh
    exact hh)

theorem div_Kc_ne_zero {a : ℝ} (h : a ≠ 0) : a / Kc ≠ 0 :=
  div_ne_zero h Kc_ne

theorem closest_dist_sq_master (c P Q : ℝ × ℝ) (x1 y1 x2 y2 u : ℝ)
    (hP : to_meters c P = (x1, y1)) (hQ : to_meters c Q = (x2, y2))
    (hu : max 0 (min 1 (-(x1 * (x2 - x1) + y1 * (y2 - y1)) /
      ((x2 - x1) * (x2 - x1) + (y2 - y1) * (y2 - y1)))) = u) :
    closest_dist_sq c P Q =
      (x1 + u * (x2 - x1)) * (x1 + u * (x2 - x1)) +
        (y1 + u * (y2 - y1)) * (y1 + u * (y2 - y1)) := by
  have hdx : seg_dx c P Q = x2 - x1 := by rw [seg_dx, hP, hQ]
  have hdy : seg_dy c P Q = y2 - y1 := by rw [seg_dy, hP, hQ]
  have hdr2 : seg_dr2 c P Q = (x2 - x1) * (x2 - x1) + (y2 - y1) * (y2 - y1) := by
    rw [seg_dr2, hdx, hdy]
  have hct : closest_t c P Q = u := by
    rw [closest_t, hdx, hdy, hdr2, hP]
    exact hu
  rw [closest_dist_sq, hct, hdx, hdy, hP]

theorem seg_dr2_master (c P Q : ℝ × ℝ) (x1 y1 x2 y2 : ℝ)
    (hP : to_meters c P = (x1, y1)) (hQ : to_meters c Q = (x2, y2)) :
    seg_dr2 c P Q = (x2 - x1) * (x2 - x1) + (y2 - y1) * (y2 - y1) := by
  have hdx : seg_dx c P Q = x2 - x1 := by rw [seg_dx, hP, hQ]
  have hdy : seg_dy c P Q = y2 - y1 := by rw [seg_dy, hP, hQ]
  rw [seg_dr2, hdx, hdy]

theorem lic_true_master (c P Q : ℝ × ℝ) (x1 y1 x2 y2 r u : ℝ)
    (hP : to_meters c P = (x1, y1)) (hQ : to_meters c Q = (x2, y2))
    (hne : (x2 - x1) * (x2 - x1) + (y2 - y1) * (y2 - y1) ≠ 0)
    (hu : max 0 (min 1 (-(x1 * (x2 - x1) + y1 * (y2 - y1)) /
      ((x2 - x1) * (x2 - x1) + (y2 - y1) * (y2 - y1)))) = u)
    (hval : (x1 + u * (x2 - x1)) * (x1 + u * (x2 - x1)) +
      (y1 + u * (y2 - y1)) * (y1 + u * (y2 - y1)) < r * r) :
    line_intersects_circle P Q c r = true := by
  rw [line_intersects_circle, if_neg (by rw [seg_dr2_master c P Q x1 y1 x2 y2 hP hQ]; exact hne),
    decide_eq_true_eq, closest_dist_sq_master c P Q x1 y1 x2 y2 u hP hQ hu]
  exact hval

theorem lic_false_master (c P Q : ℝ × ℝ) (x1 y1 x2 y2 r u : ℝ)
    (hP : to_meters c P = (x1, y1)) (hQ : to_meters c Q = (x2, y2))
    (hne : (x2 - x1) * (x2 - x1) + (y2 - y1) * (y2 - y1) ≠ 0)
    (hu : max 0 (min 1 (-(x1 * (x2 - x1) + y1 * (y2 - y1)) /
      ((x2 - x1) * (x2 - x1) + (y2 - y1) * (y2 - y1)))) = u)
    (hval : r * r ≤ (x1 + u * (x2 - x1)) * (x1 + u * (x2 - x1)) +
      (y1 + u * (y2 - y1)) * (y1 + u * (y2 - y1))) :
    line_intersects_circle P Q c r = false := by
  rw [line_intersects_circle, if_neg (by rw [seg_dr2_master c P Q x1 y1 x2 y2 hP hQ]; exact hne),
    decide_eq_false_iff_not, closest_dist_sq_master c P Q x1 y1 x2 y2 u hP hQ hu]
  exact not_lt.mpr hval

theorem roots_master (c P Q : ℝ × ℝ) (x1 y1 x2 y2 rv aq bq dq sq : ℝ)
    (hP : to_meters c P = (x1, y1)) (hQ : to_meters c Q = (x2, y2))
    (ha : (x2 - x1) * (x2 - x1) + (y2 - y1) * (y2 - y1) = aq)
    (hb : 2 * ((x2 - x1) * x1 + (y2 - y1) * y1) = bq)
    (hd : bq * bq - 4 * aq * (x1 * x1 + y1 * y1 - rv * rv) = dq)
    (hs : Real.sqrt dq = sq) :
    quad_disc c P Q rv = dq ∧
    root_t1 c P Q rv = (-bq - sq) / (2 * aq) ∧
    root_t2 c P Q rv = (-bq + sq) / (2 * aq) := by
  have hdx : seg_dx c P Q = x2 - x1 := by rw [seg_dx, hP, hQ]
  have hdy : seg_dy c P Q = y2 - y1 := by rw [seg_dy, hP, hQ]
  have hdr2 : seg_dr2 c P Q = aq := by rw [seg_dr2, hdx, hdy, ha]
  have hqb : quad_b c P Q = bq := by
    rw [quad_b, hdx, hdy, hP]
    exact hb
  have hqc : quad_c c P Q rv = x1 * x1 + y1 * y1 - rv * rv := by
    rw [quad_c, hP]
  have hqd : quad_disc c P Q rv = dq := by
    rw [quad_disc, hqb, hdr2, hqc]
    exact hd
  exact ⟨hqd, by rw [root_t1, hqb, hqd, hs, hdr2], by rw [root_t2, hqb, hqd, hs, hdr2]⟩

theorem clci_two_roots (P Q : ℝ × ℝ) (o : Obstacle) (c : ℝ × ℝ)
    (x1 y1 x2 y2 rv aq bq dq sq t1v t2v : ℝ)
    (hc : o.center = c) (hr : o.effective_radius = rv)
    (hP : to_meters c P = (x1, y1)) (hQ : to_meters c Q = (x2, y2))
    (ha : (x2 - x1) * (x2 - x1) + (y2 - y1) * (y2 - y1) = aq) (hane : aq ≠ 0)
    (hb : 2 * ((x2 - x1) * x1 + (y2 - y1) * y1) = bq)
    (hd : bq * bq - 4 * aq * (x1 * x1 + y1 * y1 - rv * rv) = dq)
    (hdnn : ¬dq < 0) (hs : Real.sqrt dq = sq)
    (ht1 : (-bq - sq) / (2 * aq) = t1v) (ht2 : (-bq + sq) / (2 * aq) = t2v)
    (h1a : 0 ≤ t1v) (h1b : t1v ≤ 1) (h2a : 0 ≤ t2v) (h2b : t2v ≤ 1) :
    calculate_line_circle_intersection P Q o =
      [to_latlon c (x1 + t1v * (x2 - x1), y1 + t1v * (y2 - y1)),
       to_latlon c (x1 + t2v * (x2 - x1), y1 + t2v * (y2 - y1))] := by
  obtain ⟨hqd, hr1, hr2⟩ := roots_master c P Q x1 y1 x2 y2 rv aq bq dq sq hP hQ ha hb hd hs
  have hdx : seg_dx c P Q = x2 - x1 := by rw [seg_dx, hP, hQ]
  have hdy : seg_dy c P Q = y2 - y1 := by rw [seg_dy, hP, hQ]
  have hdr2 : seg_dr2 c P Q = aq := by rw [seg_dr2, hdx, hdy, ha]
  have hrt1 : root_t1 c P Q rv = t1v := by rw [hr1, ht1]
  have hrt2 : root_t2 c P Q rv = t2v := by rw [hr2, ht2]
  rw [calculate_line_circle_intersection, hc, hr,
    if_neg (by rw [hqd, hdr2]; push_neg; exact ⟨not_lt.mp hdnn, hane⟩),
    hrt1, hrt2,
    List.filter_cons, if_pos (by rw [decide_eq_true_eq]; exact ⟨h1a, h1b⟩),
    List.filter_cons, if_pos (by rw [decide_eq_true_eq]; exact ⟨h2a, h2b⟩),
    List.filter_nil, List.map_cons, List.map_cons, List.map_nil,
    point_at, point_at, hdx, hdy, hP]

theorem clci_no_roots (P Q : ℝ × ℝ) (o : Obstacle) (c : ℝ × ℝ)
    (x1 y1 x2 y2 rv aq bq dq sq t1v t2v : ℝ)
    (hc : o.center = c) (hr : o.effective_radius = rv)
    (hP : to_meters c P = (x1, y1)) (hQ : to_meters c Q = (x2, y2))
    (ha : (x2 - x1) * (x2 - x1) + (y2 - y1) * (y2 - y1) = aq) (hane : aq ≠ 0)
    (hb : 2 * ((x2 - x1) * x1 + (y2 - y1) * y1) = bq)
    (hd : bq * bq - 4 * aq * (x1 * x1 + y1 * y1 - rv * rv) = dq)
    (hdnn : ¬dq < 0) (hs : Real.sqrt dq = sq)
    (ht1 : (-bq - sq) / (2 * aq) = t1v) (ht2 : (-bq + sq) / (2 * aq) = t2v)
    (h1 : ¬(0 ≤ t1v ∧ t1v ≤ 1)) (h2 : ¬(0 ≤ t2v ∧ t2v ≤ 1)) :
    calculate_line_circle_intersection P Q o = [] := by
  obtain ⟨hqd, hr1, hr2⟩ := roots_master c P Q x1 y1 x2 y2 rv aq bq dq sq hP hQ ha hb hd hs
  have hdx : seg_dx c P Q = x2 - x1 := by rw [seg_dx, hP, hQ]
  have hdy : seg_dy c P Q = y2 - y1 := by rw [seg_dy, hP, hQ]
  have hdr2 : seg_dr2 c P Q = aq := by rw [seg_dr2, hdx, hdy, ha]
  have hrt1 : root_t1 c P Q rv = t1v := by rw [hr1, ht1]
  have hrt2 : root_t2 c P Q rv = t2v := by rw [hr2, ht2]
  rw [calculate_line_circle_intersection, hc, hr,
    if_neg (by rw [hqd, hdr2]; push_neg; exact ⟨not_lt.mp hdnn, hane⟩),
    hrt1, hrt2,
    List.filter_cons, if_neg (by rw [decide_eq_true_eq]; exact h1),
    List.filter_cons, if_neg (by rw [decide_eq_true_eq]; exact h2),
    List.filter_nil, List.map_nil]

theorem seg_len_master (c P Q : ℝ × ℝ) (x1 y1 x2 y2 lv : ℝ)
    (hP : to_meters c P = (x1, y1)) (hQ : to_meters c Q = (x2, y2))
    (hl : (x2 - x1) * (x2 - x1) + (y2 - y1) * (y2 - y1) = lv ^ 2) (hlv : 0 ≤ lv) :
    seg_len c P Q = lv := by
  rw [seg_len, seg_dr2_master c P Q x1 y1 x2 y2 hP hQ]
  exact sqrt_num hlv hl

theorem generate_tangent_detour_args (p1 p2 : ℝ × ℝ) (o : Obstacle) (i1 i2 j1 j2 : ℝ × ℝ) :
    generate_tangent_detour p1 p2 o i1 i2 = generate_tangent_detour p1 p2 o j1 j2 := rfl

theorem gen_eval_master (P Q : ℝ × ℝ) (o : Obstacle) (i1 i2 : ℝ × ℝ) (c : ℝ × ℝ)
    (x1 y1 x2 y2 rv lv : ℝ)
    (hc : o.center = c) (hr : o.effective_radius = rv)
    (hP : to_meters c P = (x1, y1)) (hQ : to_meters c Q = (x2, y2))
    (hl : (x2 - x1) * (x2 - x1) + (y2 - y1) * (y2 - y1) = lv ^ 2) (hlv : (0.001 : ℝ) ≤ lv) :
    generate_tangent_detour P Q o i1 i2 =
      [to_latlon c (x1 + 0.25 * (x2 - x1) + (y2 - y1) / lv * (rv * 1.2),
                    y1 + 0.25 * (y2 - y1) + -((x2 - x1) / lv) * (rv * 1.2)),
       to_latlon c (x1 + 0.75 * (x2 - x1) + (y2 - y1) / lv * (rv * 1.2),
                    y1 + 0.75 * (y2 - y1) + -((x2 - x1) / lv) * (rv * 1.2))] := by
  have hdx : seg_dx c P Q = x2 - x1 := by rw [seg_dx, hP, hQ]
  have hdy : seg_dy c P Q = y2 - y1 := by rw [seg_dy, hP, hQ]
  have hlen : seg_len c P Q = lv := seg_len_master c P Q x1 y1 x2 y2 lv hP hQ hl
    (le_trans (by norm_num) hlv)
  have hlen2 : (0.001 : ℝ) ≤ seg_len c P Q := by rw [hlen]; exact hlv
  have hch : chosen_detour c P Q (rv * 1.2) =
      ((y2 - y1) / lv * (rv * 1.2), -((x2 - x1) / lv) * (rv * 1.2)) := by
    rw [chosen_detour_eq, detour2_vec, perp_x, perp_y, unit_ux, unit_uy, hdx, hdy, hlen,
      neg_neg]
  have hgen := generate_tangent_detour_eval P Q o i1 i2 (by rw [hc]; exact hlen2)
  rw [hc] at hgen
  rw [hgen, hr, hch, point_at, point_at, hdx, hdy, hP]

theorem ssl_detour (P Q e1 e2 ipt1 ipt2 : ℝ × ℝ) (o : Obstacle) (rest : List Obstacle)
    (hints : calculate_line_circle_intersection P Q o = [ipt1, ipt2])
    (hgen : generate_tangent_detour P Q o (0, 0) (0, 0) = [e1, e2]) :
    segment_scan_line P Q (o :: rest) none = [P, e1, e2, Q] := by
  have hgen2 : generate_tangent_detour P Q o
      ((calculate_line_circle_intersection P Q o).getD 0 (0, 0))
      ((calculate_line_circle_intersection P Q o).getD 1 (0, 0)) = [e1, e2] :=
    (generate_tangent_detour_args P Q o _ _ (0, 0) (0, 0)).trans hgen
  rw [segment_scan_line, if_neg (by rw [hints]; norm_num), hgen2,
    List.filter_cons, List.filter_cons, List.filter_nil]
  rw [if_pos (show passes_boundary none e1 = true from rfl),
    if_pos (show passes_boundary none e2 = true from rfl)]
  rw [if_neg (by simp)]
  rfl

theorem ssl_short (P Q : ℝ × ℝ) (o : Obstacle) (rest : List Obstacle)
    (boundary : Option (List (ℝ × ℝ)))
    (h : (calculate_line_circle_intersection P Q o).length < 2) :
    segment_scan_line P Q (o :: rest) boundary = [P, Q] := by
  rw [segment_scan_line, if_pos h]

theorem ssl_empty_detour (P Q : ℝ × ℝ) (o : Obstacle) (rest : List Obstacle)
    (hgen : generate_tangent_detour P Q o (0, 0) (0, 0) = []) :
    segment_scan_line P Q (o :: rest) none = [P, Q] := by
  have hgen2 : generate_tangent_detour P Q o
      ((calculate_line_circle_intersection P Q o).getD 0 (0, 0))
      ((calculate_line_circle_intersection P Q o).getD 1 (0, 0)) = [] :=
    (generate_tangent_detour_args P Q o _ _ (0, 0) (0, 0)).trans hgen
  rw [segment_scan_line]
  by_cases h : (calculate_line_circle_intersection P Q o).length < 2
  · rw [if_pos h]
  · rw [if_neg h, hgen2, if_pos (List.filter_nil _)]

theorem clamp_mid {t u : ℝ} (h : t = u) (h0 : 0 ≤ u) (h1 : u ≤ 1) :
    max 0 (min 1 t) = u := by
  rw [h, min_eq_right h1, max_eq_right h0]

theorem clamp_hi {t : ℝ} (h1 : 1 ≤ t) : max 0 (min 1 t) = 1 := by
  rw [min_eq_left h1, max_eq_right zero_le_one]

theorem clamp_lo {t : ℝ} (h0 : t ≤ 0) : max 0 (min 1 t) = 0 := by
  rw [min_eq_right (le_trans h0 zero_le_one), max_eq_left h0]

theorem calculate_distance_lat0 (b₁ b₂ : ℝ) :
    calculate_distance (0, b₁) (0, b₂) = |b₂ - b₁| * Kc := by
  rw [calculate_distance_eq]
  rw [show ((0 : ℝ) + 0) / 2 = 0 by norm_num, cos_radians_zero]
  rw [show ((b₂ - b₁) * 1) ^ 2 + ((0 : ℝ) - 0) ^ 2 = (b₂ - b₁) ^ 2 by ring]
  rw [Real.sqrt_sq_eq_abs]

theorem lic_aa_O1 : line_intersects_circle p1a p2a (0, 0) 4 = true := by
  apply lic_true_master (0, 0) p1a p2a (-10) 0 10 0 4 0.5 tm_p1a tm_p2a (by norm_num)
    (clamp_mid (by norm_num) (by norm_num) (by norm_num))
  norm_num

theorem lic_aa_O2 : line_intersects_circle p1a p2a (0, 0) 5 = true := by
  apply lic_true_master (0, 0) p1a p2a (-10) 0 10 0 5 0.5 tm_p1a tm_p2a (by norm_num)
    (clamp_mid (by norm_num) (by norm_num) (by norm_num))
  norm_num

theorem lic_s1_O1 : line_intersects_circle p1a entryA (0, 0) 4 = false := by
  apply lic_false_master (0, 0) p1a entryA (-10) 0 (-5) (-4.8) 4 1 tm_p1a tm_entryA
    (by norm_num) (clamp_hi (by norm_num))
  norm_num

theorem lic_s1_O2 : line_intersects_circle p1a entryA (0, 0) 5 = false := by
  apply lic_false_master (0, 0) p1a entryA (-10) 0 (-5) (-4.8) 5 1 tm_p1a tm_entryA
    (by norm_num) (clamp_hi (by norm_num))
  norm_num

theorem lic_s2_O1 : line_intersects_circle entryA exitA (0, 0) 4 = false := by
  apply lic_false_master (0, 0) entryA exitA (-5) (-4.8) 5 (-4.8) 4 0.5 tm_entryA tm_exitA
    (by norm_num) (clamp_mid (by norm_num) (by norm_num) (by norm_num))
  norm_num

theorem lic_s2_O2 : line_intersects_circle entryA exitA (0, 0) 5 = true := by
  apply lic_true_master (0, 0) entryA exitA (-5) (-4.8) 5 (-4.8) 5 0.5 tm_entryA tm_exitA
    (by norm_num) (clamp_mid (by norm_num) (by norm_num) (by norm_num))
  norm_num

theorem lic_s3_O1 : line_intersects_circle exitA p2a (0, 0) 4 = false := by
  apply lic_false_master (0, 0) exitA p2a 5 (-4.8) 10 0 4 0 tm_exitA tm_p2a
    (by norm_num) (clamp_lo (by norm_num))
  norm_num

theorem lic_s3_O2 : line_intersects_circle exitA p2a (0, 0) 5 = false := by
  apply lic_false_master (0, 0) exitA p2a 5 (-4.8) 10 0 5 0 tm_exitA tm_p2a
    (by norm_num) (clamp_lo (by norm_num))
  norm_num

theorem lic_cc : line_intersects_circle p1c p2c (0, 0) 0.0001 = true := by
  apply lic_true_master (0, 0) p1c p2c (-0.0004) 0 0.0004 0 0.0001 0.5 tm_p1c tm_p2c
    (by norm_num) (clamp_mid (by norm_num) (by norm_num) (by norm_num))
  norm_num

theorem lic_ww : line_intersects_circle p1w p2w (0, 0) 0.001 = true := by
  apply lic_true_master (0, 0) p1w p2w (-0.004) 0 0.004 0 0.001 0.5 tm_p1w tm_p2w
    (by norm_num) (clamp_mid (by norm_num) (by norm_num) (by norm_num))
  norm_num

theorem tm_c2p1 : to_meters (0, 0.005) (0, 0) = (-(0.005 * Kc), 0) := by
  rw [to_meters_lat0, Prod.mk.injEq]
  constructor
  · ring
  · exact zero_mul Kc

theorem tm_c2p2 : to_meters (0, 0.005) (0, 0.01) = (0.005 * Kc, 0) := by
  rw [to_meters_lat0, Prod.mk.injEq]
  constructor
  · norm_num
  · exact zero_mul Kc

theorem lic_c2 : line_intersects_circle (0, 0) (0, 0.01) (0, 0.005) 51 = true := by
  have h0 := Kc_ne
  apply lic_true_master (0, 0.005) (0, 0) (0, 0.01) (-(0.005 * Kc)) 0 (0.005 * Kc) 0 51 0.5
    tm_c2p1 tm_c2p2
    (by
      intro hcon
      have h1 : (0.005 * Kc - -(0.005 * Kc)) * (0.005 * Kc - -(0.005 * Kc)) +
          ((0 : ℝ) - 0) * (0 - 0) = 0.0001 * Kc ^ 2 := by ring
      rw [h1] at hcon
      exact absurd hcon (by
        have := Kc_pos
        positivity))
    (clamp_mid (by
      field_simp
      ring) (by norm_num) (by norm_num))
  have h2 : (-(0.005 * Kc) + 0.5 * (0.005 * Kc - -(0.005 * Kc))) *
      (-(0.005 * Kc) + 0.5 * (0.005 * Kc - -(0.005 * Kc))) +
      ((0 : ℝ) + 0.5 * (0 - 0)) * (0 + 0.5 * (0 - 0)) = 0 := by ring
  rw [h2]
  norm_num

theorem clci_aa_O1 : calculate_line_circle_intersection p1a p2a O1 =
    [((0 : ℝ), -4 / Kc), ((0 : ℝ), 4 / Kc)] := by
  rw [clci_two_roots p1a p2a O1 (0, 0) (-10) 0 10 0 4 400 (-400) 25600 160 0.3 0.7
    rfl O1_eff tm_p1a tm_p2a (by norm_num) (by norm_num) (by norm_num) (by norm_num)
    (by norm_num) (sqrt_num (by norm_num) (by norm_num)) (by norm_num) (by norm_num)
    (by norm_num) (by norm_num) (by norm_num) (by norm_num)]
  rw [show ((-10 : ℝ) + 0.3 * (10 - -10), (0 : ℝ) + 0.3 * (0 - 0)) = ((-4 : ℝ), (0 : ℝ))
    by norm_num]
  rw [show ((-10 : ℝ) + 0.7 * (10 - -10), (0 : ℝ) + 0.7 * (0 - 0)) = ((4 : ℝ), (0 : ℝ))
    by norm_num]
  rw [tl_zero, tl_zero]
  norm_num

theorem clci_ee_O2 : calculate_line_circle_intersection entryA exitA O2 =
    [((-4.8 / Kc : ℝ), -1.4 / Kc), ((-4.8 / Kc : ℝ), 1.4 / Kc)] := by
  rw [clci_two_roots entryA exitA O2 (0, 0) (-5) (-4.8) 5 (-4.8) 5 100 (-100) 784 28
    0.36 0.64 rfl O2_eff tm_entryA tm_exitA (by norm_num) (by norm_num) (by norm_num)
    (by norm_num) (by norm_num) (sqrt_num (by norm_num) (by norm_num)) (by norm_num)
    (by norm_num) (by norm_num) (by norm_num) (by norm_num) (by norm_num)]
  rw [show ((-5 : ℝ) + 0.36 * (5 - -5), (-4.8 : ℝ) + 0.36 * (-4.8 - -4.8)) =
    ((-1.4 : ℝ), (-4.8 : ℝ)) by norm_num]
  rw [show ((-5 : ℝ) + 0.64 * (5 - -5), (-4.8 : ℝ) + 0.64 * (-4.8 - -4.8)) =
    ((1.4 : ℝ), (-4.8 : ℝ)) by norm_num]
  rw [tl_zero, tl_zero]

theorem clci_cc : calculate_line_circle_intersection p1c p2c oc3 =
    [((0 : ℝ), -0.0001 / Kc), ((0 : ℝ), 0.0001 / Kc)] := by
  rw [clci_two_roots p1c p2c oc3 (0, 0) (-0.0004) 0 0.0004 0 0.0001 0.00000064
    (-0.00000064) 0.0000000000000256 0.00000016 0.375 0.625
    rfl oc3_eff tm_p1c tm_p2c (by norm_num) (by norm_num) (by norm_num) (by norm_num)
    (by norm_num) (sqrt_num (by norm_num) (by norm_num)) (by norm_num) (by norm_num)
    (by norm_num) (by norm_num) (by norm_num) (by norm_num)]
  rw [show ((-0.0004 : ℝ) + 0.375 * (0.0004 - -0.0004), (0 : ℝ) + 0.375 * (0 - 0)) =
    ((-0.0001 : ℝ), (0 : ℝ)) by norm_num]
  rw [show ((-0.0004 : ℝ) + 0.625 * (0.0004 - -0.0004), (0 : ℝ) + 0.625 * (0 - 0)) =
    ((0.0001 : ℝ), (0 : ℝ)) by norm_num]
  rw [tl_zero, tl_zero]
  norm_num

theorem clci_ww : calculate_line_circle_intersection p1w p2w ow3 =
    [((0 : ℝ), -0.001 / Kc), ((0 : ℝ), 0.001 / Kc)] := by
  rw [clci_two_roots p1w p2w ow3 (0, 0) (-0.004) 0 0.004 0 0.001 0.000064
    (-0.000064) 0.000000000256 0.000016 0.375 0.625
    rfl ow3_eff tm_p1w tm_p2w (by norm_num) (by norm_num) (by norm_num) (by norm_num)
    (by norm_num) (sqrt_num (by norm_num) (by norm_num)) (by norm_num) (by norm_num)
    (by norm_num) (by norm_num) (by norm_num) (by norm_num)]
  rw [show ((-0.004 : ℝ) + 0.375 * (0.004 - -0.004), (0 : ℝ) + 0.375 * (0 - 0)) =
    ((-0.001 : ℝ), (0 : ℝ)) by norm_num]
  rw [show ((-0.004 : ℝ) + 0.625 * (0.004 - -0.004), (0 : ℝ) + 0.625 * (0 - 0)) =
    ((0.001 : ℝ), (0 : ℝ)) by norm_num]
  rw [tl_zero, tl_zero]
  norm_num

theorem clci_c2 : calculate_line_circle_intersection (0, 0) (0, 0.01) obC2 = [] := by
  have hKpos := Kc_pos
  have hKlt := Kc_lt_1945
  apply clci_no_roots (0, 0) (0, 0.01) obC2 (0, 0.005) (-(0.005 * Kc)) 0 (0.005 * Kc) 0
    51 (0.0001 * Kc ^ 2) (-(0.0001 * Kc ^ 2)) (1.0404 * Kc ^ 2) (1.02 * Kc)
    ((0.0001 * Kc ^ 2 - 1.02 * Kc) / (0.0002 * Kc ^ 2))
    ((0.0001 * Kc ^ 2 + 1.02 * Kc) / (0.0002 * Kc ^ 2))
    rfl obC2_eff tm_c2p1 tm_c2p2 (by ring)
    (by positivity) (by ring) (by ring)
    (not_lt.mpr (by positivity))
    (sqrt_num (by positivity) (by ring))
    (by ring) (by ring)
  · rintro ⟨h0, -⟩
    have hnum : 0.0001 * Kc ^ 2 - 1.02 * Kc < 0 := by nlinarith
    have hden : (0 : ℝ) < 0.0002 * Kc ^ 2 := by positivity
    exact absurd h0 (not_le.mpr (div_neg_of_neg_of_pos hnum hden))
  · rintro ⟨-, h1⟩
    have hgt : 1 < (0.0001 * Kc ^ 2 + 1.02 * Kc) / (0.0002 * Kc ^ 2) := by
      rw [lt_div_iff₀ (by positivity)]
      nlinarith
    exact absurd h1 (not_le.mpr hgt)

theorem gen_aa_O1 : generate_tangent_detour p1a p2a O1 (0, 0) (0, 0) = [entryA, exitA] := by
  rw [gen_eval_master p1a p2a O1 (0, 0) (0, 0) (0, 0) (-10) 0 10 0 4 20
    rfl O1_eff tm_p1a tm_p2a (by norm_num) (by norm_num)]
  rw [show ((-10 : ℝ) + 0.25 * (10 - -10) + ((0 : ℝ) - 0) / 20 * (4 * 1.2),
      (0 : ℝ) + 0.25 * (0 - 0) + -((10 - -10) / 20) * (4 * 1.2)) =
    ((-5 : ℝ), (-4.8 : ℝ)) by norm_num]
  rw [show ((-10 : ℝ) + 0.75 * (10 - -10) + ((0 : ℝ) - 0) / 20 * (4 * 1.2),
      (0 : ℝ) + 0.75 * (0 - 0) + -((10 - -10) / 20) * (4 * 1.2)) =
    ((5 : ℝ), (-4.8 : ℝ)) by norm_num]
  rw [tl_zero, tl_zero]
  rfl

theorem gen_ee_O2 : generate_tangent_detour entryA exitA O2 (0, 0) (0, 0) =
    [entryB, exitB] := by
  rw [gen_eval_master entryA exitA O2 (0, 0) (0, 0) (0, 0) (-5) (-4.8) 5 (-4.8) 5 10
    rfl O2_eff tm_entryA tm_exitA (by norm_num) (by norm_num)]
  rw [show ((-5 : ℝ) + 0.25 * (5 - -5) + ((-4.8 : ℝ) - -4.8) / 10 * (5 * 1.2),
      (-4.8 : ℝ) + 0.25 * (-4.8 - -4.8) + -((5 - -5) / 10) * (5 * 1.2)) =
    ((-2.5 : ℝ), (-10.8 : ℝ)) by norm_num]
  rw [show ((-5 : ℝ) + 0.75 * (5 - -5) + ((-4.8 : ℝ) - -4.8) / 10 * (5 * 1.2),
      (-4.8 : ℝ) + 0.75 * (-4.8 - -4.8) + -((5 - -5) / 10) * (5 * 1.2)) =
    ((2.5 : ℝ), (-10.8 : ℝ)) by norm_num]
  rw [tl_zero, tl_zero]
  rfl

theorem gen_ww : generate_tangent_detour p1w p2w ow3 (0, 0) (0, 0) =
    [((-0.0012 / Kc : ℝ), -0.002 / Kc), ((-0.0012 / Kc : ℝ), 0.002 / Kc)] := by
  rw [gen_eval_master p1w p2w ow3 (0, 0) (0, 0) (0, 0) (-0.004) 0 0.004 0 0.001 0.008
    rfl ow3_eff tm_p1w tm_p2w (by norm_num) (by norm_num)]
  rw [show ((-0.004 : ℝ) + 0.25 * (0.004 - -0.004) + ((0 : ℝ) - 0) / 0.008 * (0.001 * 1.2),
      (0 : ℝ) + 0.25 * (0 - 0) + -((0.004 - -0.004) / 0.008) * (0.001 * 1.2)) =
    ((-0.002 : ℝ), (-0.0012 : ℝ)) by norm_num]
  rw [show ((-0.004 : ℝ) + 0.75 * (0.004 - -0.004) + ((0 : ℝ) - 0) / 0.008 * (0.001 * 1.2),
      (0 : ℝ) + 0.75 * (0 - 0) + -((0.004 - -0.004) / 0.008) * (0.001 * 1.2)) =
    ((0.002 : ℝ), (-0.0012 : ℝ)) by norm_num]
  rw [tl_zero, tl_zero]

theorem gen_cc : generate_tangent_detour p1c p2c oc3 (0, 0) (0, 0) = [] := by
  rw [generate_tangent_detour, if_pos]
  rw [show oc3.center = ((0 : ℝ), (0 : ℝ)) from rfl,
    seg_len_master (0, 0) p1c p2c (-0.0004) 0 0.0004 0 0.0008 tm_p1c tm_p2c
      (by norm_num) (by norm_num)]
  norm_num

theorem ssl_aa : segment_scan_line p1a p2a [O1, O2] none = [p1a, entryA, exitA, p2a] :=
  ssl_detour p1a p2a entryA exitA _ _ O1 [O2] clci_aa_O1 gen_aa_O1

theorem ssl_ee : segment_scan_line entryA exitA [O2] none =
    [entryA, entryB, exitB, exitA] :=
  ssl_detour entryA exitA entryB exitB _ _ O2 [] clci_ee_O2 gen_ee_O2

theorem ssl_c2 : segment_scan_line (0, 0) (0, 0.01) [obC2] none = [(0, 0), (0, 0.01)] :=
  ssl_short (0, 0) (0, 0.01) obC2 [] none (by rw [clci_c2]; norm_num)

theorem ssl_cc : segment_scan_line p1c p2c [oc3] none = [p1c, p2c] :=
  ssl_empty_detour p1c p2c oc3 [] gen_cc

theorem ssl_ww : segment_scan_line p1w p2w [ow3] none =
    [p1w, ((-0.0012 / Kc : ℝ), -0.002 / Kc), ((-0.0012 / Kc : ℝ), 0.002 / Kc), p2w] :=
  ssl_detour p1w p2w _ _ _ _ ow3 [] clci_ww gen_ww

/-- C3 (counterexample to the claim as stated): a colliding scan segment whose
quadratic has both roots inside `[0, 1]` (0.375 and 0.625), with no boundary
polygon, for which the planner nevertheless returns only `[p1, p2]`: the
segment's local length 0.0008 m is below the 0.001 m cutoff of
`_generate_tangent_detour`, so no bypass points are produced. -/
theorem claim_C3_cex :
    line_intersects_circle p1c p2c oc3.center oc3.effective_radius = true ∧
    root_t1 oc3.center p1c p2c oc3.effective_radius = 0.375 ∧
    root_t2 oc3.center p1c p2c oc3.effective_radius = 0.625 ∧
    segment_scan_line p1c p2c [oc3] none = [p1c, p2c] := by
  have hc : oc3.center = ((0 : ℝ), (0 : ℝ)) := rfl
  rw [hc, oc3_eff]
  obtain ⟨-, hr1, hr2⟩ := roots_master (0, 0) p1c p2c (-0.0004) 0 0.0004 0 0.0001
    0.00000064 (-0.00000064) 0.0000000000000256 0.00000016 tm_p1c tm_p2c
    (by norm_num) (by norm_num) (by norm_num) (sqrt_num (by norm_num) (by norm_num))
  refine ⟨lic_cc, ?_, ?_, ssl_cc⟩
  · rw [hr1]
    norm_num
  · rw [hr2]
    norm_num

/-- C3 (witness): the amended theorem applied at a concrete colliding segment
with both roots in `[0, 1]` and local length 0.008 m above the cutoff. -/
theorem claim_C3_witness :
    segment_scan_line p1w p2w [ow3] none =
      [p1w,
       to_latlon ow3.center
         ((point_at ow3.center p1w p2w 0.25).1 +
            (chosen_detour ow3.center p1w p2w (ow3.effective_radius * 1.2)).1,
          (point_at ow3.center p1w p2w 0.25).2 +
            (chosen_detour ow3.center p1w p2w (ow3.effective_radius * 1.2)).2),
       to_latlon ow3.center
         ((point_at ow3.center p1w p2w 0.75).1 +
            (chosen_detour ow3.center p1w p2w (ow3.effective_radius * 1.2)).1,
          (point_at ow3.center p1w p2w 0.75).2 +
            (chosen_detour ow3.center p1w p2w (ow3.effective_radius * 1.2)).2),
       p2w] := by
  have hc : ow3.center = ((0 : ℝ), (0 : ℝ)) := rfl
  obtain ⟨hqd, hr1, hr2⟩ := roots_master (0, 0) p1w p2w (-0.004) 0 0.004 0 0.001
    0.000064 (-0.000064) 0.000000000256 0.000016 tm_p1w tm_p2w
    (by norm_num) (by norm_num) (by norm_num) (sqrt_num (by norm_num) (by norm_num))
  exact (claim_C3 p1w p2w ow3 [] none
    (by rw [hc, ow3_eff]; exact lic_ww)
    (by rw [hc, seg_dr2_master (0, 0) p1w p2w (-0.004) 0 0.004 0 tm_p1w tm_p2w]; norm_num)
    (by rw [hc, ow3_eff, hr1]; norm_num)
    (by rw [hc, ow3_eff, hr2]; norm_num)
    (by
      rw [hc, seg_len_master (0, 0) p1w p2w (-0.004) 0 0.004 0 0.008 tm_p1w tm_p2w
        (by norm_num) (by norm_num)]
      norm_num)
    (by rw [hc, ow3_eff, hqd]; norm_num)
    (fun dp _ => rfl)).1

/-- C9 (witness): at a concrete non-degenerate segment the selection resolves
to the fixed tie-break `detour2`. -/
theorem claim_C9_witness :
    chosen_detour O1.center p1a p2a (O1.effective_radius * 1.2) =
      detour2_vec O1.center p1a p2a (O1.effective_radius * 1.2) :=
  (claim_C9 p1a p2a O1 (0, 0) (0, 0) (by
    rw [show O1.center = ((0 : ℝ), (0 : ℝ)) from rfl,
      seg_len_master (0, 0) p1a p2a (-10) 0 10 0 20 tm_p1a tm_p2a (by norm_num)
        (by norm_num)]
    norm_num)).2.1

theorem identify_two (P Q : ℝ × ℝ) (hd : 0 < calculate_distance P Q) :
    identify_scan_segments [P, Q] = [("scan", 0, 1)] := by
  rw [identify_scan_segments, if_neg (by simp),
    if_neg (by simp [List.map_eq_nil_iff, List.range_eq_nil])]
  rw [show List.range (([P, Q] : List (ℝ × ℝ)).length - 1) = [0] from rfl]
  simp only [List.map_cons, List.map_nil, List.getD_cons_zero, List.getD_cons_succ]
  have hcond : calculate_distance P Q >
      (List.insertionSort (· ≤ ·) [calculate_distance P Q]).getD
        ((List.insertionSort (· ≤ ·) [calculate_distance P Q]).length / 2) 0 * 0.6 := by
    rw [show List.insertionSort (· ≤ ·) [calculate_distance P Q] =
      [calculate_distance P Q] from rfl]
    rw [show ([calculate_distance P Q] : List ℝ).length / 2 = 0 by
      norm_num [List.length_singleton]]
    rw [List.getD_cons_zero]
    nlinarith
  rw [if_pos hcond]

theorem identify_c2 : identify_scan_segments [(0, 0), (0, 0.01)] = [("scan", 0, 1)] :=
  identify_two (0, 0) (0, 0.01) (by
    rw [calculate_distance_lat0]
    exact mul_pos (abs_pos.mpr (by norm_num)) Kc_pos)

theorem identify_pass1 : identify_scan_segments [p1a, p2a] = [("scan", 0, 1)] :=
  identify_two p1a p2a (by
    rw [show p1a = ((0 : ℝ), -10 / Kc) from rfl, show p2a = ((0 : ℝ), 10 / Kc) from rfl,
      calculate_distance_lat0]
    have h20 : (10 / Kc : ℝ) - -10 / Kc = 20 / Kc := by ring
    exact mul_pos (abs_pos.mpr (h20 ▸ div_Kc_ne_zero (by norm_num))) Kc_pos)

theorem assemble_step_scan_col (obstacles : List Obstacle) (ws : List (ℝ × ℝ))
    (boundary : Option (List (ℝ × ℝ))) (res : List (ℝ × ℝ)) (P : List ℕ) (i j : ℕ)
    (p q : ℝ × ℝ) (os : List Obstacle)
    (hp : ws.getD i (0, 0) = p) (hq : ws.getD j (0, 0) = q)
    (hcol : check_segment_collision obstacles p q = os) (hne : os ≠ []) :
    assemble_step obstacles ws boundary (res, P) ("scan", i, j) =
      (dedup_append res (segment_scan_line p q os boundary), P ++ [i, j]) := by
  simp only [assemble_step]
  rw [hp, hq, if_pos trivial, hcol, if_neg hne]

theorem dedup_append_all_new :
    ∀ (pts res : List (ℝ × ℝ)), pts.Nodup → (∀ x ∈ pts, x ∉ res) →
      dedup_append res pts = res ++ pts := by
  intro pts
  induction pts with
  | nil => intro res _ _; simp [dedup_append]
  | cons p rest ih =>
    intro res hnd hnew
    have hstep : dedup_append res (p :: rest) = dedup_append (res ++ [p]) rest := by
      rw [dedup_append, List.foldl_cons, if_neg (hnew p (List.mem_cons_self p rest))]
      rfl
    rw [hstep, ih (res ++ [p]) (List.Nodup.of_cons hnd) (fun x hx => by
      rw [List.mem_append, List.mem_singleton]
      rintro (hmem | rfl)
      · exact hnew x (List.mem_cons_of_mem p hx) hmem
      · exact (List.nodup_cons.mp hnd).1 hx)]
    simp

theorem ne_entryA_p1a : entryA ≠ p1a := pair_ne_left (div_Kc_ne_zero (by norm_num))

theorem ne_exitA_p1a : exitA ≠ p1a := pair_ne_left (div_Kc_ne_zero (by norm_num))

theorem ne_exitA_entryA : exitA ≠ entryA := pair_ne_right (div_Kc_ne (by norm_num))

theorem ne_p2a_p1a : p2a ≠ p1a := pair_ne_right (div_Kc_ne (by norm_num))

theorem ne_p2a_entryA : p2a ≠ entryA :=
  pair_ne_left (Ne.symm (div_Kc_ne_zero (by norm_num)))

theorem ne_p2a_exitA : p2a ≠ exitA :=
  pair_ne_left (Ne.symm (div_Kc_ne_zero (by norm_num)))

theorem ne_entryB_p1a : entryB ≠ p1a := pair_ne_left (div_Kc_ne_zero (by norm_num))

theorem ne_entryB_entryA : entryB ≠ entryA := pair_ne_left (div_Kc_ne (by norm_num))

theorem ne_exitB_p1a : exitB ≠ p1a := pair_ne_left (div_Kc_ne_zero (by norm_num))

theorem ne_exitB_entryA : exitB ≠ entryA := pair_ne_left (div_Kc_ne (by norm_num))

theorem ne_exitB_entryB : exitB ≠ entryB := pair_ne_right (div_Kc_ne (by norm_num))

theorem ne_exitA_entryB : exitA ≠ entryB := pair_ne_left (div_Kc_ne (by norm_num))

theorem ne_exitA_exitB : exitA ≠ exitB := pair_ne_left (div_Kc_ne (by norm_num))

theorem csc_c2 : check_segment_collision [obC2] (0, 0) (0, 0.01) = [obC2] := by
  simp only [check_segment_collision, List.filter_cons, List.filter_nil]
  rw [show obC2.center = ((0 : ℝ), (0.005 : ℝ)) from rfl, obC2_eff, lic_c2]
  simp

theorem csc_aa : check_segment_collision Ma p1a p2a = [O1, O2] := by
  simp only [check_segment_collision, Ma, List.filter_cons, List.filter_nil]
  rw [show O1.center = ((0 : ℝ), (0 : ℝ)) from rfl, show O2.center = ((0 : ℝ), (0 : ℝ)) from rfl,
    O1_eff, O2_eff, lic_aa_O1, lic_aa_O2]
  simp

theorem csc_s1 : check_segment_collision Ma p1a entryA = [] := by
  simp only [check_segment_collision, Ma, List.filter_cons, List.filter_nil]
  rw [show O1.center = ((0 : ℝ), (0 : ℝ)) from rfl, show O2.center = ((0 : ℝ), (0 : ℝ)) from rfl,
    O1_eff, O2_eff, lic_s1_O1, lic_s1_O2]
  simp

theorem csc_s2 : check_segment_collision Ma entryA exitA = [O2] := by
  simp only [check_segment_collision, Ma, List.filter_cons, List.filter_nil]
  rw [show O1.center = ((0 : ℝ), (0 : ℝ)) from rfl, show O2.center = ((0 : ℝ), (0 : ℝ)) from rfl,
    O1_eff, O2_eff, lic_s2_O1, lic_s2_O2]
  simp

theorem csc_s3 : check_segment_collision Ma exitA p2a = [] := by
  simp only [check_segment_collision, Ma, List.filter_cons, List.filter_nil]
  rw [show O1.center = ((0 : ℝ), (0 : ℝ)) from rfl, show O2.center = ((0 : ℝ), (0 : ℝ)) from rfl,
    O1_eff, O2_eff, lic_s3_O1, lic_s3_O2]
  simp

theorem route_c2 : filter_waypoints_with_detour [obC2] [(0, 0), (0, 0.01)] none =
    [(0, 0), (0, 0.01)] := by
  rw [filter_waypoints_with_detour, if_neg (by simp), identify_c2,
    List.foldl_cons, List.foldl_nil]
  rw [assemble_step_scan_col [obC2] [(0, 0), (0, 0.01)] none [] [] 0 1 (0, 0) (0, 0.01)
    [obC2] rfl rfl csc_c2 (by simp)]
  rw [ssl_c2]
  rw [dedup_append_all_new [(0, 0), (0, 0.01)] [] (by
      simp only [List.nodup_cons, List.mem_singleton, List.not_mem_nil, not_false_iff,
        List.nodup_nil, and_true, List.mem_cons, or_false]
      exact pair_ne_right (by norm_num)) (fun x _ => List.not_mem_nil x)]
  rw [show List.range (([((0 : ℝ), (0 : ℝ)), ((0 : ℝ), (0.01 : ℝ))] : List (ℝ × ℝ)).length) =
    [0, 1] from rfl]
  rw [sweep_skip _ [0, 1] _ (by intro i hi; fin_cases hi <;> simp)]
  rfl

/-- C2 (amended): at the concrete end-to-end input, `segment_collides` is
true, but `route([p1, p2])` returns exactly the two original points `[p1, p2]`
unchanged: in the code's scaled local plane both endpoints lie strictly inside
the 51 m effective circle, so the quadratic's roots fall outside `[0, 1]` and
the detour is abandoned. -/
theorem claim_C2 :
    line_intersects_circle (0, 0) (0, 0.01) obC2.center obC2.effective_radius = true ∧
    filter_waypoints_with_detour [obC2] [(0, 0), (0, 0.01)] none = [(0, 0), (0, 0.01)] :=
  ⟨by rw [show obC2.center = ((0 : ℝ), (0.005 : ℝ)) from rfl, obC2_eff]; exact lic_c2,
   route_c2⟩

/-- C2 (counterexample to the claim as stated): the route output at the
end-to-end input has 2 points, not the 4 points `[p1, entry, exit, p2]` the
claim asserts. -/
theorem claim_C2_cex :
    (filter_waypoints_with_detour [obC2] [(0, 0), (0, 0.01)] none).length = 2 := by
  rw [route_c2]
  rfl

theorem not_mem_two {x a b : ℝ × ℝ} (h1 : x ≠ a) (h2 : x ≠ b) :
    x ∉ ([a, b] : List (ℝ × ℝ)) := by
  simp [h1, h2]

theorem nodup_pass1 : ([p1a, entryA, exitA, p2a] : List (ℝ × ℝ)).Nodup := by
  simp only [List.nodup_cons, List.mem_cons, List.mem_singleton, List.not_mem_nil,
    List.nodup_nil, and_true, or_false, not_or]
  exact ⟨⟨ne_entryA_p1a.symm, ne_exitA_p1a.symm, ne_p2a_p1a.symm⟩,
    ⟨ne_exitA_entryA.symm, ne_p2a_entryA.symm⟩, ne_p2a_exitA.symm, not_false⟩

theorem nodup_rest2 : ([entryB, exitB, exitA] : List (ℝ × ℝ)).Nodup := by
  simp only [List.nodup_cons, List.mem_cons, List.mem_singleton, List.not_mem_nil,
    List.nodup_nil, and_true, or_false, not_or]
  exact ⟨⟨ne_exitB_entryB.symm, ne_exitA_entryB.symm⟩, ne_exitA_exitB.symm, not_false⟩

theorem route_pass1 : filter_waypoints_with_detour Ma [p1a, p2a] none = w1a := by
  rw [filter_waypoints_with_detour, if_neg (by simp [Ma]), identify_pass1,
    List.foldl_cons, List.foldl_nil]
  rw [assemble_step_scan_col Ma [p1a, p2a] none [] [] 0 1 p1a p2a [O1, O2] rfl rfl
    csc_aa (by simp)]
  rw [ssl_aa]
  rw [dedup_append_all_new [p1a, entryA, exitA, p2a] [] nodup_pass1
    (fun x _ => List.not_mem_nil x)]
  rw [show List.range (([p1a, p2a] : List (ℝ × ℝ)).length) = [0, 1] from rfl]
  rw [sweep_skip _ [0, 1] _ (by intro i hi; fin_cases hi <;> simp)]
  rfl

theorem assemble_step_scan_nocol (obstacles : List Obstacle) (ws : List (ℝ × ℝ))
    (boundary : Option (List (ℝ × ℝ))) (res : List (ℝ × ℝ)) (P : List ℕ) (i j : ℕ)
    (p q : ℝ × ℝ)
    (hp : ws.getD i (0, 0) = p) (hq : ws.getD j (0, 0) = q)
    (hcol : check_segment_collision obstacles p q = []) :
    assemble_step obstacles ws boundary (res, P) ("scan", i, j) =
      append_if_new ws (append_if_new ws (res, P) i) j := by
  simp only [assemble_step]
  rw [hp, hq, if_pos trivial, if_pos hcol]

theorem dedup_pass2 : dedup_append [p1a, entryA] [entryA, entryB, exitB, exitA] =
    [p1a, entryA, entryB, exitB, exitA] := by
  have h1 : dedup_append [p1a, entryA] [entryA, entryB, exitB, exitA] =
      dedup_append [p1a, entryA] [entryB, exitB, exitA] := by
    rw [dedup_append, dedup_append]
    simp only [List.foldl_cons]
    rw [if_pos (by simp : entryA ∈ ([p1a, entryA] : List (ℝ × ℝ)))]
  rw [h1, dedup_append_all_new [entryB, exitB, exitA] [p1a, entryA] nodup_rest2
    (fun x hx => by
      fin_cases hx
      · exact not_mem_two ne_entryB_p1a ne_entryB_entryA
      · exact not_mem_two ne_exitB_p1a ne_exitB_entryA
      · exact not_mem_two ne_exitA_p1a ne_exitA_entryA)]
  rfl

theorem identify_pass2 : identify_scan_segments w1a =
    [("scan", 0, 1), ("scan", 1, 2), ("scan", 2, 3)] := by
  have hp1a' : p1a = ((0 : ℝ) / Kc, (-10 : ℝ) / Kc) := by
    rw [p1a]
    norm_num
  have hp2a' : p2a = ((0 : ℝ) / Kc, (10 : ℝ) / Kc) := by
    rw [p2a]
    norm_num
  have hd01 : calculate_distance p1a entryA =
      Real.sqrt ((5 * Real.cos ((-4.8 : ℝ) / (2 * earth_radius_m))) ^ 2 + 23.04) := by
    rw [hp1a', show entryA = ((-4.8 : ℝ) / Kc, (-5 : ℝ) / Kc) from rfl,
      calculate_distance_div,
      show ((-5 : ℝ) - -10) = 5 by norm_num,
      show ((0 : ℝ) + -4.8) = -4.8 by norm_num,
      show ((-4.8 : ℝ) - 0) ^ 2 = 23.04 by norm_num]
  have hd12 : calculate_distance entryA exitA =
      10 * Real.cos ((-9.6 : ℝ) / (2 * earth_radius_m)) := by
    rw [show entryA = ((-4.8 : ℝ) / Kc, (-5 : ℝ) / Kc) from rfl,
      show exitA = ((-4.8 : ℝ) / Kc, (5 : ℝ) / Kc) from rfl,
      calculate_distance_div,
      show ((5 : ℝ) - -5) = 10 by norm_num,
      show ((-4.8 : ℝ) + -4.8) = -9.6 by norm_num]
    refine sqrt_num ?_ (by norm_num)
    have h1 := Real.one_sub_sq_div_two_le_cos (x := (-9.6 : ℝ) / (2 * earth_radius_m))
    have h2 : ((-9.6 : ℝ) / (2 * earth_radius_m)) ^ 2 ≤ 0.2 := by
      rw [earth_radius_m]
      norm_num
    nlinarith
  have hd23 : calculate_distance exitA p2a =
      Real.sqrt ((5 * Real.cos ((-4.8 : ℝ) / (2 * earth_radius_m))) ^ 2 + 23.04) := by
    rw [show exitA = ((-4.8 : ℝ) / Kc, (5 : ℝ) / Kc) from rfl, hp2a',
      calculate_distance_div,
      show ((10 : ℝ) - 5) = 5 by norm_num,
      show ((-4.8 : ℝ) + 0) = -4.8 by norm_num,
      show ((0 : ℝ) - -4.8) ^ 2 = 23.04 by norm_num]
  rw [identify_scan_segments, if_neg (by simp [w1a]),
    if_neg (by simp [w1a, List.map_eq_nil_iff, List.range_eq_nil])]
  rw [show List.range (w1a.length - 1) = [0, 1, 2] from rfl]
  simp only [List.map_cons, List.map_nil, w1a, List.getD_cons_zero, List.getD_cons_succ]
  simp only [hd01, hd12, hd23]
  set ca := Real.cos ((-4.8 : ℝ) / (2 * earth_radius_m)) with hca
  set cb := Real.cos ((-9.6 : ℝ) / (2 * earth_radius_m)) with hcb
  set d1 := Real.sqrt ((5 * ca) ^ 2 + 23.04) with hd1def
  have hca1 : ca ≤ 1 := Real.cos_le_one _
  have hca9 : (0.9 : ℝ) ≤ ca := by
    have h1 := Real.one_sub_sq_div_two_le_cos (x := (-4.8 : ℝ) / (2 * earth_radius_m))
    have h2 : ((-4.8 : ℝ) / (2 * earth_radius_m)) ^ 2 ≤ 0.2 := by
      rw [earth_radius_m]
      norm_num
    rw [← hca] at h1
    linarith
  have hcb9 : (0.9 : ℝ) ≤ cb := by
    have h1 := Real.one_sub_sq_div_two_le_cos (x := (-9.6 : ℝ) / (2 * earth_radius_m))
    have h2 : ((-9.6 : ℝ) / (2 * earth_radius_m)) ^ 2 ≤ 0.2 := by
      rw [earth_radius_m]
      norm_num
    rw [← hcb] at h1
    linarith
  have hd1pos : 0 < d1 := Real.sqrt_pos.mpr (by positivity)
  have hd1le7 : d1 ≤ 7 := by
    have harg : (5 * ca) ^ 2 + 23.04 ≤ 49 := by nlinarith
    have h49 : Real.sqrt 49 = 7 := sqrt_num (by norm_num) (by norm_num)
    calc d1 ≤ Real.sqrt 49 := Real.sqrt_le_sqrt harg
      _ = 7 := h49
  have h1lt : d1 < 10 * cb := lt_of_le_of_lt hd1le7 (by linarith)
  have hsort : List.insertionSort (· ≤ ·) [d1, 10 * cb, d1] = [d1, d1, 10 * cb] := by
    simp only [List.insertionSort, List.orderedInsert]
    rw [if_neg (not_le.mpr h1lt)]
    simp only [List.orderedInsert]
    rw [if_pos le_rfl]
  simp only [hsort]
  rw [show (([d1, d1, 10 * cb] : List ℝ).length) / 2 = 1 by simp]
  simp only [List.getD_cons_succ, List.getD_cons_zero]
  rw [if_pos (by nlinarith : d1 > d1 * 0.6), if_pos (by nlinarith : 10 * cb > d1 * 0.6)]

theorem route_pass2 : filter_waypoints_with_detour Ma w1a none = w2a := by
  rw [filter_waypoints_with_detour, if_neg (by simp [w1a, Ma]), identify_pass2,
    List.foldl_cons, List.foldl_cons, List.foldl_cons, List.foldl_nil]
  have hstep1 : assemble_step Ma w1a none ([], []) ("scan", 0, 1) =
      ([p1a, entryA], [0, 1]) := by
    rw [assemble_step_scan_nocol Ma w1a none [] [] 0 1 p1a entryA rfl rfl csc_s1]
    rfl
  have hstep2 : assemble_step Ma w1a none ([p1a, entryA], [0, 1]) ("scan", 1, 2) =
      ([p1a, entryA, entryB, exitB, exitA], [0, 1, 1, 2]) := by
    rw [assemble_step_scan_col Ma w1a none [p1a, entryA] [0, 1] 1 2 entryA exitA [O2]
      rfl rfl csc_s2 (by simp)]
    rw [ssl_ee, dedup_pass2]
    rfl
  have hstep3 : assemble_step Ma w1a none ([p1a, entryA, entryB, exitB, exitA], [0, 1, 1, 2])
      ("scan", 2, 3) = (w2a, [0, 1, 1, 2, 3]) := by
    rw [assemble_step_scan_nocol Ma w1a none [p1a, entryA, entryB, exitB, exitA]
      [0, 1, 1, 2] 2 3 exitA p2a rfl rfl csc_s3]
    rw [append_if_new_mem w1a _ 2 (by simp)]
    rw [append_if_new_not_mem w1a _ 3 (by simp)]
    rfl
  rw [hstep1, hstep2, hstep3]
  rw [show List.range (w1a.length) = [0, 1, 2, 3] from rfl]
  rw [sweep_skip _ [0, 1, 2, 3] _ (by intro i hi; fin_cases hi <;> simp)]

/-- C6 (counterexample to the claim as stated): `route` is not idempotent.
On the two-point scan line `[p1a, p2a]` with two concentric obstacles (radii 4
and 5 local meters), the first pass detours around the first obstacle, but the
detour segment crosses the second obstacle; the second pass therefore detours
again, turning the 4-point output into 6 points. -/
theorem claim_C6_cex :
    filter_waypoints_with_detour Ma (filter_waypoints_with_detour Ma [p1a, p2a] none)
      none ≠ filter_waypoints_with_detour Ma [p1a, p2a] none := by
  rw [route_pass1, route_pass2]
  intro h
  have hlen := congrArg List.length h
  simp [w1a, w2a] at hlen

end

end DroneObstacle
